import Mathlib

/-!
Shallow embedding of the generic counter interface
(`drivers/counter/generic-counter.c` together with `include/linux/counter.h`).

The embedding models:

* the entity model (`counter_signal`, `counter_synapse`, `counter_count`,
  `counter_device` and the three extension flavours) as plain Lean
  structures; a C `(pointer, num_x)` array pair is modelled as a single
  Lean `List` (drivers declare `num_x` as the array size, so the pair is
  kept in sync by construction);
* kernel memory as an explicit `Mem` state: every `kmalloc`/`kzalloc`/
  `kcalloc`/`kasprintf` draws a fresh allocation id and an oracle decides
  whether the allocation succeeds; `kfree` erases one occurrence of the id
  from the multiset of live allocations (`kfree(NULL)` is a no-op, as in
  the kernel);
* the IDA instance-id allocator and the sysfs host (`device_add`/
  `device_del`) as further fields of `Mem`;
* the attribute-namespace builder functions of the source, translated one
  by one in explicit state-passing style, each returning the C `int`
  error code together with the updated data and memory;
* the sysfs dispatch thunks (show/store callbacks), each parameterised
  over the driver accessor it invokes (an opaque function over an
  abstract driver state) and returning the produced text or the updated
  entity-model node.

`scnprintf` truncation at PAGE_SIZE is not modelled (all strings produced
by the core are tiny); a C enum value is modelled by a Lean inductive.
-/

namespace GenericCounter

/-- Error number EINVAL (the code returns `-EINVAL`). -/
def EINVAL : Int := 22

/-- Error number ENOMEM (the code returns `-ENOMEM`). -/
def ENOMEM : Int := 12

/-- Synapse action modes, `enum synapse_action` of `counter.h`. -/
inductive SynapseAction where
  | none_
  | risingEdge
  | fallingEdge
  | bothEdges
deriving DecidableEq, Repr

/-- String table `synapse_action_str` of `generic-counter.c`. -/
def synapse_action_str : SynapseAction → String
  | .none_ => "none"
  | .risingEdge => "rising edge"
  | .fallingEdge => "falling edge"
  | .bothEdges => "both edges"

/-- Count function modes, `enum count_function` of `counter.h`. -/
inductive CountFunction where
  | increase
  | decrease
  | pulseDirection
  | quadratureX1
  | quadratureX2
  | quadratureX4
deriving DecidableEq, Repr

/-- String table `count_function_str` of `generic-counter.c`. -/
def count_function_str : CountFunction → String
  | .increase => "increase"
  | .decrease => "decrease"
  | .pulseDirection => "pulse-direction"
  | .quadratureX1 => "quadrature x1"
  | .quadratureX2 => "quadrature x2"
  | .quadratureX4 => "quadrature x4"

/-- Signal extension descriptor (`struct counter_signal_ext`): the name and
whether the `read`/`write` callbacks are non-NULL.  The callback bodies are
driver code, outside the core. -/
structure SigExt where
  name : String
  read : Bool
  write : Bool
deriving DecidableEq, Repr

/-- Signal node (`struct counter_signal`).  `name = none` models a NULL
name pointer; `ext` models the `(ext, num_ext)` array pair. -/
structure counter_signal where
  id : Int
  name : Option String
  ext : List SigExt
deriving DecidableEq, Repr

/-- Synapse node (`struct counter_synapse`).  `action` is the mutable cache
of the last observed action-mode index.  The C `signal` field is a pointer
the core dereferences without a NULL check; it is modelled as the
referenced Signal value. -/
structure counter_synapse where
  action : Nat
  actions_list : List SynapseAction
  signal : counter_signal
deriving DecidableEq, Repr

/-- Count extension descriptor (`struct counter_count_ext`). -/
structure CountExt where
  name : String
  read : Bool
  write : Bool
deriving DecidableEq, Repr

/-- Count node (`struct counter_count`).  `function` is the mutable cache of
the last observed function-mode index. -/
structure counter_count where
  id : Int
  name : Option String
  function : Nat
  functions_list : List CountFunction
  synapses : List counter_synapse
  ext : List CountExt
deriving DecidableEq, Repr

/-- Device extension descriptor (`struct counter_device_ext`). -/
structure DevExt where
  name : String
  read : Bool
  write : Bool
deriving DecidableEq, Repr

/-- Presence of the driver accessor callbacks the builder consults
(the code reads them through `counter->ops`). -/
structure OpsPresence where
  signal_read : Bool
  count_read : Bool
  count_write : Bool
  function_get : Bool
  function_set : Bool
  action_get : Bool
  action_set : Bool
deriving DecidableEq, Repr

/-- Device node (`struct counter_device`), the driver-supplied entity
model handed to `counter_register`. -/
structure counter_device where
  name : Option String
  ops : OpsPresence
  signals : List counter_signal
  counts : List counter_count
  ext : List DevExt
deriving DecidableEq, Repr

/-! ### Built artifacts

`counter_attribute_create` receives a show callback, a store callback and
an opaque `void *component`.  The callback pointers are modelled by the
`ShowFn`/`StoreFn` enumerations of the static thunk functions of the
source, the component by its allocation id together with the data the
source stores in it (the source stores pointers into the entity model;
the build never mutates the entity model, so the referenced value is
recorded). -/

/-- The show thunks of `generic-counter.c`. -/
inductive ShowFn where
  | signalShow
  | nameShow
  | signalExtShow
  | actionShow
  | synapseActionAvailableShow
  | countShow
  | functionShow
  | countFunctionAvailableShow
  | countExtShow
  | sizeShow
  | deviceExtShow
deriving DecidableEq, Repr

/-- The store thunks of `generic-counter.c`. -/
inductive StoreFn where
  | signalExtStore
  | actionStore
  | countStore
  | functionStore
  | countExtStore
  | deviceExtStore
deriving DecidableEq, Repr

/-- Dispatch context data (the `*_comp_t` structures). -/
inductive Component where
  | signal (s : counter_signal)
  | nameC (s : String)
  | signalExt (s : counter_signal) (e : SigExt)
  | action (syn : counter_synapse) (c : counter_count)
  | actionAvail (acts : List SynapseAction)
  | countC (c : counter_count)
  | funcAvail (fns : List CountFunction)
  | countExt (c : counter_count) (e : CountExt)
  | size (n : Nat)
  | devExt (e : DevExt)
deriving DecidableEq, Repr

/-- One built endpoint (`struct counter_device_attr`): the allocation ids of
the attribute structure, of its name string and of its component, plus the
name text, the installed show/store thunks (`none` models a NULL callback
pointer, which leaves the corresponding mode bit clear) and the dispatch
data. -/
structure CAttr where
  self : Nat
  nameId : Nat
  name : String
  showFn : Option ShowFn
  storeFn : Option StoreFn
  comp : Nat
  compData : Component
deriving DecidableEq, Repr

/-- One group under construction (`struct counter_device_attr_group`).
`attrList` is the `attr_list` of the source: `list_add` prepends, so the
head is the most recently created attribute.  `attrsArr` is the
`attr_group.attrs` pointer array: its allocation id and the attribute
pointers copied into it (NULL until `prepare_counter_device_groups`). -/
structure Group where
  name : Option (Nat × String)
  attrsArr : Option (Nat × List CAttr)
  attrList : List CAttr
  num_attr : Nat
deriving DecidableEq, Repr

/-- A freshly `kcalloc`ed (zeroed) group. -/
def emptyGroup : Group :=
  { name := none, attrsArr := none, attrList := [], num_attr := 0 }

/-! ### Memory, IDA and host model -/

/-- Kernel memory, the IDA id allocator and the sysfs host, threaded
through every builder function. -/
structure Mem where
  /-- decides whether the k-th fallible acquisition succeeds -/
  oracle : Nat → Bool
  /-- index of the next fallible acquisition -/
  tick : Nat
  /-- next fresh heap allocation id -/
  next : Nat
  /-- multiset of live heap allocation ids -/
  live : Multiset Nat
  /-- next fresh counter instance id (IDA) -/
  idaNext : Nat
  /-- multiset of live counter instance ids -/
  idaLive : Multiset Nat
  /-- devices currently registered with the host, most recent first:
  instance id together with the attribute groups handed over -/
  published : List (Nat × List Group)

/-- Heap allocation (`kmalloc`/`kzalloc`/`kcalloc`/`kasprintf`): consults the
oracle; on success returns a fresh id and marks it live. -/
def kmalloc (σ : Mem) : Option Nat × Mem :=
  if σ.oracle σ.tick then
    (some σ.next,
      { σ with tick := σ.tick + 1, next := σ.next + 1, live := σ.next ::ₘ σ.live })
  else
    (none, { σ with tick := σ.tick + 1 })

/-- Heap release (`kfree`): erases one occurrence of the id. -/
def kfree (p : Nat) (σ : Mem) : Mem :=
  { σ with live := σ.live.erase p }

/-- Release of a nullable pointer; `kfree(NULL)` is a no-op. -/
def kfreeOpt (p : Option Nat) (σ : Mem) : Mem :=
  match p with
  | none => σ
  | some q => kfree q σ

/-- Instance id acquisition (`ida_simple_get(&counter_ida, 0, 0, ...)`),
modelled as a fresh-id source with oracle-driven failure. -/
def ida_simple_get (σ : Mem) : Option Nat × Mem :=
  if σ.oracle σ.tick then
    (some σ.idaNext,
      { σ with tick := σ.tick + 1, idaNext := σ.idaNext + 1,
               idaLive := σ.idaNext ::ₘ σ.idaLive })
  else
    (none, { σ with tick := σ.tick + 1 })

/-- Instance id release (`ida_simple_remove`). -/
def ida_simple_remove (i : Nat) (σ : Mem) : Mem :=
  { σ with idaLive := σ.idaLive.erase i }

/-- Host registration (`device_add`): fallible; on success the device is
recorded as published under its instance id with its attribute groups. -/
def device_add (id : Nat) (groups : List Group) (σ : Mem) : Int × Mem :=
  if σ.oracle σ.tick then
    (0, { σ with tick := σ.tick + 1, published := (id, groups) :: σ.published })
  else
    (-ENOMEM, { σ with tick := σ.tick + 1 })

/-- Host removal (`device_del`). -/
def device_del (id : Nat) (σ : Mem) : Mem :=
  { σ with published := σ.published.filter (fun p => p.1 ≠ id) }

/-! ### Attribute namespace builder

Each function below is the translation of the function of the same name in
`generic-counter.c`, in explicit state-passing style: it returns the C
`int` result (0 on success), the updated group data, and the updated
memory.  The C functions mutate the group through a pointer; here the
updated group is returned. -/

/-- Translation of `free_counter_device_attr_list`: walks the list head
first, releasing for each node the name string, the component and the node
itself (the C `list_del` empties the list, which callers model by
replacing the list with `[]`). -/
def free_counter_device_attr_list : List CAttr → Mem → Mem
  | [], σ => σ
  | p :: rest, σ =>
      free_counter_device_attr_list rest (kfree p.self (kfree p.comp (kfree p.nameId σ)))

/-- Translation of `counter_attribute_create`: allocates the attribute
node (`kzalloc`) and its name string (`kasprintf "%s%s" pfx name`), then
prepends the attribute to the group's list.  On the name-allocation
failure the node is released; the component is never released here (the
caller owns it until the attribute holds it). -/
def counter_attribute_create (group : Group) (pfx nm : String)
    (sh : Option ShowFn) (st : Option StoreFn) (component : Nat × Component)
    (σ : Mem) : Int × Group × Mem :=
  match kmalloc σ with
  | (none, σ₁) => (-ENOMEM, group, σ₁)
  | (some attrId, σ₁) =>
    match kmalloc σ₁ with
    | (none, σ₂) => (-ENOMEM, group, kfree attrId σ₂)
    | (some nameId, σ₂) =>
      let a : CAttr :=
        { self := attrId, nameId := nameId, name := pfx ++ nm,
          showFn := sh, storeFn := st,
          comp := component.1, compData := component.2 }
      (0, { group with attrList := a :: group.attrList,
                       num_attr := group.num_attr + 1 }, σ₂)

/-- Translation of `counter_name_attribute_create`: skipped when the name
is NULL; otherwise allocates a `name_comp_t` and creates a read-only
`name` attribute, releasing the component if the creation fails. -/
def counter_name_attribute_create (group : Group) (nm : Option String)
    (σ : Mem) : Int × Group × Mem :=
  match nm with
  | none => (0, group, σ)
  | some s =>
    match kmalloc σ with
    | (none, σ₁) => (-ENOMEM, group, σ₁)
    | (some compId, σ₁) =>
      match counter_attribute_create group "" "name" (some .nameShow) none
          (compId, .nameC s) σ₁ with
      | (e, g', σ₂) =>
        if e = 0 then (0, g', σ₂)
        else (e, g', kfree compId σ₂)

/-- Translation of `counter_signal_ext_register`: one attribute per signal
extension; any failure releases the pending component and the whole
attribute list built so far in this group. -/
def counter_signal_ext_register (s : counter_signal) :
    Group → List SigExt → Mem → Int × Group × Mem
  | group, [], σ => (0, group, σ)
  | group, e :: rest, σ =>
    match kmalloc σ with
    | (none, σ₁) =>
        (-ENOMEM, { group with attrList := [] },
          free_counter_device_attr_list group.attrList σ₁)
    | (some compId, σ₁) =>
      match counter_attribute_create group "" e.name
          (if e.read then some .signalExtShow else none)
          (if e.write then some .signalExtStore else none)
          (compId, .signalExt s e) σ₁ with
      | (err, g', σ₂) =>
        if err = 0 then counter_signal_ext_register s g' rest σ₂
        else
          (err, { g' with attrList := [] },
            free_counter_device_attr_list g'.attrList (kfree compId σ₂))

/-- Translation of `counter_signal_attributes_create`: the main `signal`
attribute (read-only iff the device's `signal_read` accessor is present),
the optional `name` attribute, then the extension attributes.  The first
failure releases only the component; later failures release the group's
attribute list. -/
def counter_signal_attributes_create (group : Group) (ops : OpsPresence)
    (s : counter_signal) (σ : Mem) : Int × Group × Mem :=
  match kmalloc σ with
  | (none, σ₁) => (-ENOMEM, group, σ₁)
  | (some compId, σ₁) =>
    match counter_attribute_create group "" "signal"
        (if ops.signal_read then some .signalShow else none) none
        (compId, .signal s) σ₁ with
    | (e₁, g₁, σ₂) =>
      if e₁ = 0 then
        match counter_name_attribute_create g₁ s.name σ₂ with
        | (e₂, g₂, σ₃) =>
          if e₂ = 0 then
            match counter_signal_ext_register s g₂ s.ext σ₃ with
            | (e₃, g₃, σ₄) =>
              if e₃ = 0 then (0, g₃, σ₄)
              else
                (e₃, { g₃ with attrList := [] },
                  free_counter_device_attr_list g₃.attrList σ₄)
          else
            (e₂, { g₂ with attrList := [] },
              free_counter_device_attr_list g₂.attrList σ₃)
      else (e₁, g₁, kfree compId σ₂)

/-- Translation of `counter_signals_register`: one group per Signal, named
`signal<id>`; on failure the `do { ... } while(i--)` unwind releases the
name and attribute list of the failing group and of every earlier one
(modelled by each recursion frame cleaning its own group on the way out). -/
def counter_signals_register (ops : OpsPresence) :
    List counter_signal → List Group → Mem → Int × List Group × Mem
  | [], groups, σ => (0, groups, σ)
  | _ :: _, [], σ => (0, [], σ)
  | s :: rest, g :: gs, σ =>
    match kmalloc σ with
    | (none, σ₁) =>
        let σ₂ := free_counter_device_attr_list g.attrList
          (kfreeOpt (g.name.map Prod.fst) σ₁)
        (-ENOMEM, { g with attrList := [] } :: gs, σ₂)
    | (some nameId, σ₁) =>
      let g₁ := { g with name := some (nameId, "signal" ++ toString s.id) }
      match counter_signal_attributes_create g₁ ops s σ₁ with
      | (e, g₂, σ₂) =>
        if e = 0 then
          match counter_signals_register ops rest gs σ₂ with
          | (e', gs', σ₃) =>
            if e' = 0 then (0, g₂ :: gs', σ₃)
            else
              let σ₄ := free_counter_device_attr_list g₂.attrList
                (kfreeOpt (g₂.name.map Prod.fst) σ₃)
              (e', { g₂ with attrList := [] } :: gs', σ₄)
        else
          let σ₃ := free_counter_device_attr_list g₂.attrList
            (kfreeOpt (g₂.name.map Prod.fst) σ₂)
          (e, { g₂ with attrList := [] } :: gs, σ₃)

/-- Translation of `counter_synapses_register`: per Synapse, an `action`
and an `action_available` attribute under the `signal<id>_` name space of
the referenced Signal; the `kasprintf`ed prefix string is temporary and
released at the end of each iteration. -/
def counter_synapses_register (ops : OpsPresence) (c : counter_count) :
    Group → List counter_synapse → Mem → Int × Group × Mem
  | group, [], σ => (0, group, σ)
  | group, syn :: rest, σ =>
    match kmalloc σ with
    | (none, σ₁) =>
        (-ENOMEM, { group with attrList := [] },
          free_counter_device_attr_list group.attrList σ₁)
    | (some pfxId, σ₁) =>
      let pfx := "signal" ++ toString syn.signal.id ++ "_"
      match kmalloc σ₁ with
      | (none, σ₂) =>
          (-ENOMEM, { group with attrList := [] },
            free_counter_device_attr_list group.attrList (kfree pfxId σ₂))
      | (some acId, σ₂) =>
        match counter_attribute_create group pfx "action"
            (if ops.action_get then some .actionShow else none)
            (if ops.action_set then some .actionStore else none)
            (acId, .action syn c) σ₂ with
        | (e₁, g₁, σ₃) =>
          if e₁ = 0 then
            match kmalloc σ₃ with
            | (none, σ₄) =>
                (-ENOMEM, { g₁ with attrList := [] },
                  free_counter_device_attr_list g₁.attrList (kfree pfxId σ₄))
            | (some avId, σ₄) =>
              match counter_attribute_create g₁ pfx "action_available"
                  (some .synapseActionAvailableShow) none
                  (avId, .actionAvail syn.actions_list) σ₄ with
              | (e₂, g₂, σ₅) =>
                if e₂ = 0 then
                  counter_synapses_register ops c g₂ rest (kfree pfxId σ₅)
                else
                  (e₂, { g₂ with attrList := [] },
                    free_counter_device_attr_list g₂.attrList
                      (kfree pfxId (kfree avId σ₅)))
          else
            (e₁, { g₁ with attrList := [] },
              free_counter_device_attr_list g₁.attrList
                (kfree pfxId (kfree acId σ₃)))

/-- Translation of `counter_count_ext_register` (same shape as the Signal
extension loop). -/
def counter_count_ext_register (c : counter_count) :
    Group → List CountExt → Mem → Int × Group × Mem
  | group, [], σ => (0, group, σ)
  | group, e :: rest, σ =>
    match kmalloc σ with
    | (none, σ₁) =>
        (-ENOMEM, { group with attrList := [] },
          free_counter_device_attr_list group.attrList σ₁)
    | (some compId, σ₁) =>
      match counter_attribute_create group "" e.name
          (if e.read then some .countExtShow else none)
          (if e.write then some .countExtStore else none)
          (compId, .countExt c e) σ₁ with
      | (err, g', σ₂) =>
        if err = 0 then counter_count_ext_register c g' rest σ₂
        else
          (err, { g' with attrList := [] },
            free_counter_device_attr_list g'.attrList (kfree compId σ₂))

/-- Translation of `counter_count_attributes_create`: the main `count`
attribute, the `function` attribute, the read-only `function_available`
attribute, the optional `name` attribute and the extension attributes. -/
def counter_count_attributes_create (group : Group) (ops : OpsPresence)
    (c : counter_count) (σ : Mem) : Int × Group × Mem :=
  match kmalloc σ with
  | (none, σ₁) => (-ENOMEM, group, σ₁)
  | (some countCompId, σ₁) =>
    match counter_attribute_create group "" "count"
        (if ops.count_read then some .countShow else none)
        (if ops.count_write then some .countStore else none)
        (countCompId, .countC c) σ₁ with
    | (e₁, g₁, σ₂) =>
      if e₁ = 0 then
        match kmalloc σ₂ with
        | (none, σ₃) =>
            (-ENOMEM, { g₁ with attrList := [] },
              free_counter_device_attr_list g₁.attrList σ₃)
        | (some funcCompId, σ₃) =>
          match counter_attribute_create g₁ "" "function"
              (if ops.function_get then some .functionShow else none)
              (if ops.function_set then some .functionStore else none)
              (funcCompId, .countC c) σ₃ with
          | (e₂, g₂, σ₄) =>
            if e₂ = 0 then
              match kmalloc σ₄ with
              | (none, σ₅) =>
                  (-ENOMEM, { g₂ with attrList := [] },
                    free_counter_device_attr_list g₂.attrList σ₅)
              | (some availId, σ₅) =>
                match counter_attribute_create g₂ "" "function_available"
                    (some .countFunctionAvailableShow) none
                    (availId, .funcAvail c.functions_list) σ₅ with
                | (e₃, g₃, σ₆) =>
                  if e₃ = 0 then
                    match counter_name_attribute_create g₃ c.name σ₆ with
                    | (e₄, g₄, σ₇) =>
                      if e₄ = 0 then
                        match counter_count_ext_register c g₄ c.ext σ₇ with
                        | (e₅, g₅, σ₈) =>
                          if e₅ = 0 then (0, g₅, σ₈)
                          else
                            (e₅, { g₅ with attrList := [] },
                              free_counter_device_attr_list g₅.attrList σ₈)
                      else
                        (e₄, { g₄ with attrList := [] },
                          free_counter_device_attr_list g₄.attrList σ₇)
                  else
                    (e₃, { g₃ with attrList := [] },
                      free_counter_device_attr_list g₃.attrList
                        (kfree availId σ₆))
            else
              (e₂, { g₂ with attrList := [] },
                free_counter_device_attr_list g₂.attrList (kfree funcCompId σ₄))
      else (e₁, g₁, kfree countCompId σ₂)

/-- Translation of `counter_counts_register`: one group per Count, named
`count<id>`; the Synapse attributes are registered before the Count's own
attributes; the same downward unwind as for Signals runs on failure. -/
def counter_counts_register (ops : OpsPresence) :
    List counter_count → List Group → Mem → Int × List Group × Mem
  | [], groups, σ => (0, groups, σ)
  | _ :: _, [], σ => (0, [], σ)
  | c :: rest, g :: gs, σ =>
    match kmalloc σ with
    | (none, σ₁) =>
        let σ₂ := free_counter_device_attr_list g.attrList
          (kfreeOpt (g.name.map Prod.fst) σ₁)
        (-ENOMEM, { g with attrList := [] } :: gs, σ₂)
    | (some nameId, σ₁) =>
      let g₁ := { g with name := some (nameId, "count" ++ toString c.id) }
      match counter_synapses_register ops c g₁ c.synapses σ₁ with
      | (e₁, g₂, σ₂) =>
        if e₁ = 0 then
          match counter_count_attributes_create g₂ ops c σ₂ with
          | (e₂, g₃, σ₃) =>
            if e₂ = 0 then
              match counter_counts_register ops rest gs σ₃ with
              | (e₃, gs', σ₄) =>
                if e₃ = 0 then (0, g₃ :: gs', σ₄)
                else
                  let σ₅ := free_counter_device_attr_list g₃.attrList
                    (kfreeOpt (g₃.name.map Prod.fst) σ₄)
                  (e₃, { g₃ with attrList := [] } :: gs', σ₅)
            else
              let σ₄ := free_counter_device_attr_list g₃.attrList
                (kfreeOpt (g₃.name.map Prod.fst) σ₃)
              (e₂, { g₃ with attrList := [] } :: gs, σ₄)
        else
          let σ₃ := free_counter_device_attr_list g₂.attrList
            (kfreeOpt (g₂.name.map Prod.fst) σ₂)
          (e₁, { g₂ with attrList := [] } :: gs, σ₃)

/-- Translation of `counter_size_attribute_create`: a read-only numeric
attribute holding a copied size value. -/
def counter_size_attribute_create (group : Group) (size : Nat) (nm : String)
    (σ : Mem) : Int × Group × Mem :=
  match kmalloc σ with
  | (none, σ₁) => (-ENOMEM, group, σ₁)
  | (some compId, σ₁) =>
    match counter_attribute_create group "" nm (some .sizeShow) none
        (compId, .size size) σ₁ with
    | (e, g', σ₂) =>
      if e = 0 then (0, g', σ₂)
      else (e, g', kfree compId σ₂)

/-- Translation of `counter_device_ext_register` (same shape as the other
extension loops). -/
def counter_device_ext_register :
    Group → List DevExt → Mem → Int × Group × Mem
  | group, [], σ => (0, group, σ)
  | group, e :: rest, σ =>
    match kmalloc σ with
    | (none, σ₁) =>
        (-ENOMEM, { group with attrList := [] },
          free_counter_device_attr_list group.attrList σ₁)
    | (some compId, σ₁) =>
      match counter_attribute_create group "" e.name
          (if e.read then some .deviceExtShow else none)
          (if e.write then some .deviceExtStore else none)
          (compId, .devExt e) σ₁ with
      | (err, g', σ₂) =>
        if err = 0 then counter_device_ext_register g' rest σ₂
        else
          (err, { g' with attrList := [] },
            free_counter_device_attr_list g'.attrList (kfree compId σ₂))

/-- Translation of `counter_global_attr_register`: the device-global group
(no group name): optional `name`, then `num_counts`, then `num_signals`,
then the device extension attributes. -/
def counter_global_attr_register (group : Group) (dev : counter_device)
    (σ : Mem) : Int × Group × Mem :=
  match counter_name_attribute_create group dev.name σ with
  | (e₁, g₁, σ₁) =>
    if e₁ = 0 then
      match counter_size_attribute_create g₁ dev.counts.length "num_counts" σ₁ with
      | (e₂, g₂, σ₂) =>
        if e₂ = 0 then
          match counter_size_attribute_create g₂ dev.signals.length "num_signals" σ₂ with
          | (e₃, g₃, σ₃) =>
            if e₃ = 0 then
              match counter_device_ext_register g₃ dev.ext σ₃ with
              | (e₄, g₄, σ₄) =>
                if e₄ = 0 then (0, g₄, σ₄)
                else
                  (e₄, { g₄ with attrList := [] },
                    free_counter_device_attr_list g₄.attrList σ₄)
            else
              (e₃, { g₃ with attrList := [] },
                free_counter_device_attr_list g₃.attrList σ₃)
        else
          (e₂, { g₂ with attrList := [] },
            free_counter_device_attr_list g₂.attrList σ₂)
    else (e₁, g₁, σ₁)

/-- Release of one group as done inside `free_counter_device_groups_list`:
the group name, the attribute pointer array, then the attribute list. -/
def free_one_group (g : Group) (σ : Mem) : Mem :=
  free_counter_device_attr_list g.attrList
    (kfreeOpt (g.attrsArr.map Prod.fst) (kfreeOpt (g.name.map Prod.fst) σ))

/-- Release loop over the first groups of the array. -/
def free_groups_aux : List Group → Mem → Mem
  | [], σ => σ
  | g :: rest, σ => free_groups_aux rest (free_one_group g σ)

/-- Translation of `free_counter_device_groups_list`: releases the first
`num` groups' name, pointer array and attribute list, then the backing
array itself. -/
def free_counter_device_groups_list (glId : Nat) (groups : List Group)
    (num : Nat) (σ : Mem) : Mem :=
  kfree glId (free_groups_aux (groups.take num) σ)

/-- Translation of `prepare_counter_device_groups_list`: allocates the
group array (`kcalloc` of `num_signals + num_counts + 1` zeroed groups,
modelled by the array's allocation id plus `List.replicate` slices), then
runs the Signal, Count and global registration phases, tracking in
`num_groups` how many groups each completed phase contributed; any failure
releases the completed groups and the array. -/
def prepare_counter_device_groups_list (dev : counter_device) (σ : Mem) :
    Int × Option (Nat × List Group × Nat) × Mem :=
  match kmalloc σ with
  | (none, σ₁) => (-ENOMEM, none, σ₁)
  | (some glId, σ₁) =>
    match counter_signals_register dev.ops dev.signals
        (List.replicate dev.signals.length emptyGroup) σ₁ with
    | (e₁, sigGroups, σ₂) =>
      if e₁ = 0 then
        match counter_counts_register dev.ops dev.counts
            (List.replicate dev.counts.length emptyGroup) σ₂ with
        | (e₂, cntGroups, σ₃) =>
          if e₂ = 0 then
            match counter_global_attr_register emptyGroup dev σ₃ with
            | (e₃, gGroup, σ₄) =>
              if e₃ = 0 then
                (0, some (glId, sigGroups ++ cntGroups ++ [gGroup],
                          dev.signals.length + dev.counts.length + 1), σ₄)
              else
                (e₃, none,
                  free_counter_device_groups_list glId
                    (sigGroups ++ cntGroups ++ [gGroup])
                    (dev.signals.length + dev.counts.length) σ₄)
          else
            (e₂, none,
              free_counter_device_groups_list glId
                (sigGroups ++ cntGroups ++ [emptyGroup])
                dev.signals.length σ₃)
      else
        (e₁, none,
          free_counter_device_groups_list glId
            (sigGroups ++ List.replicate (dev.counts.length + 1) emptyGroup)
            0 σ₂)

/-- Loop body of `prepare_counter_device_groups`: per group, allocate the
`num_attr + 1` pointer array and copy the attribute pointers into it head
first (`list_for_each_entry`); on failure the arrays already installed in
earlier groups stay in place (they are released later through
`free_counter_device_groups_list`). -/
def prepare_groups_arrays : List Group → Mem → Int × List Group × Mem
  | [], σ => (0, [], σ)
  | g :: rest, σ =>
    match kmalloc σ with
    | (none, σ₁) => (-ENOMEM, g :: rest, σ₁)
    | (some arrId, σ₁) =>
      let g' := { g with attrsArr := some (arrId, g.attrList) }
      match prepare_groups_arrays rest σ₁ with
      | (e, rest', σ₂) => (e, g' :: rest', σ₂)

/-- Translation of `prepare_counter_device_groups`: allocates the
`device_state->groups` pointer array, then the per-group attribute
pointer arrays; on failure only the `groups` pointer array is released
here (`err_free_groups`). -/
def prepare_counter_device_groups (groups_list : List Group) (σ : Mem) :
    Int × List Group × Option Nat × Mem :=
  match kmalloc σ with
  | (none, σ₁) => (-ENOMEM, groups_list, none, σ₁)
  | (some gsId, σ₁) =>
    match prepare_groups_arrays groups_list σ₁ with
    | (e, groups', σ₂) =>
      if e = 0 then (0, groups', some gsId, σ₂)
      else (e, groups', none, kfree gsId σ₂)

/-- The state container built by a successful registration
(`struct counter_device_state`). -/
structure DeviceState where
  self : Nat
  id : Nat
  groupsListId : Nat
  groups_list : List Group
  num_groups : Nat
  groupsId : Nat
deriving DecidableEq, Repr

/-- Translation of `counter_register`: allocates the state container,
acquires a unique instance id, builds the namespace, prepares the sysfs
group arrays and hands the device to the host; each failure point unwinds
everything acquired before it (`err_free_groups` / `err_free_groups_list`
/ `err_free_id` / `err_free_device_state`).  (`dev_set_name` and
`device_initialize`, pure device-core bookkeeping, are not modelled.) -/
def counter_register (dev : counter_device) (σ : Mem) :
    Int × Option DeviceState × Mem :=
  match kmalloc σ with
  | (none, σ₁) => (-ENOMEM, none, σ₁)
  | (some dsId, σ₁) =>
    match ida_simple_get σ₁ with
    | (none, σ₂) => (-ENOMEM, none, kfree dsId σ₂)
    | (some instId, σ₂) =>
      match prepare_counter_device_groups_list dev σ₂ with
      | (e₁, info, σ₃) =>
        match info with
        | none => (e₁, none, kfree dsId (ida_simple_remove instId σ₃))
        | some (glId, groups_list, num) =>
          match prepare_counter_device_groups groups_list σ₃ with
          | (e₂, groups', gsIdOpt, σ₄) =>
            match gsIdOpt with
            | none =>
              let σ₅ := free_counter_device_groups_list glId groups' num σ₄
              (e₂, none, kfree dsId (ida_simple_remove instId σ₅))
            | some gsId =>
              match device_add instId groups' σ₄ with
              | (e₃, σ₅) =>
                if e₃ = 0 then
                  (0, some ⟨dsId, instId, glId, groups', num, gsId⟩, σ₅)
                else
                  let σ₆ := free_counter_device_groups_list glId groups'
                    num (kfree gsId σ₅)
                  (e₃, none, kfree dsId (ida_simple_remove instId σ₆))

/-- Translation of `counter_unregister`: a NULL Counter pointer is
checked first and nothing happens; otherwise the device is removed from
the host (`device_del`; the memory itself is released later by the
deferred release callback). -/
def counter_unregister (c : Option DeviceState) (σ : Mem) : Mem :=
  match c with
  | none => σ
  | some ds => device_del ds.id σ

/-! ### Enum attribute adapter

The driver `get`/`set` callbacks are modelled as functions over an
abstract driver state `δ` (the callbacks receive the counter and
signal/count pointers in C; those are closed over in `δ`).  `get` returns
either a nonzero error or the index together with the possibly updated
driver state; `set` likewise. -/

/-- Result of a sysfs show call: the produced buffer text, a negative
error number, or an out-of-bounds array read (undefined behaviour in C,
kept as a distinguished outcome). -/
inductive RRes where
  | ok (s : String)
  | err (e : Int)
  | ub
deriving DecidableEq, Repr

/-- Modelled from the kernel helper `sysfs_streq` (not part of this
repository): string equality up to one trailing newline on either side. -/
def sysfs_streq (s1 s2 : String) : Bool :=
  s1 == s2 || s1 ++ "\n" == s2 || s1 == s2 ++ "\n"

/-- Index of the first list entry satisfying the predicate (the shared
shape of the C linear-search loops). -/
def first_index_where {α : Type} (p : α → Bool) : List α → Option Nat
  | [] => none
  | x :: rest => if p x then some 0 else (first_index_where p rest).map (· + 1)

/-- Modelled from the kernel helper `__sysfs_match_string` (not part of
this repository): index of the first entry that `sysfs_streq`-matches the
incoming string, `-EINVAL` when none does.  The `n` bound of the C helper
equals the list length at every call site of this driver, so the list
carries it. -/
def __sysfs_match_string (items : List String) (str : String) : Except Int Nat :=
  match first_index_where (fun item => sysfs_streq item str) items with
  | some i => .ok i
  | none => .error (-EINVAL)

/-- Signal enum extension descriptor (`struct counter_signal_enum_ext`);
`items` models the `(items, num_items)` pair. -/
structure counter_signal_enum_ext (δ : Type) where
  items : List String
  get : Option (δ → Except Int (Nat × δ))
  set : Option (Nat → δ → Except Int δ)

/-- Translation of `counter_signal_enum_read`: `-EINVAL` without a `get`
callback; `-EINVAL` when the reported index is not below the number of
items; otherwise the item text followed by a newline. -/
def counter_signal_enum_read {δ : Type} (e : counter_signal_enum_ext δ)
    (d : δ) : RRes × δ :=
  match e.get with
  | none => (.err (-EINVAL), d)
  | some get =>
    match get d with
    | .error err => (.err err, d)
    | .ok (index, d') =>
      if index ≥ e.items.length then (.err (-EINVAL), d')
      else
        match e.items.get? index with
        | some it => (.ok (it ++ "\n"), d')
        | none => (.ub, d')

/-- Translation of `counter_signal_enum_write`: `-EINVAL` without a `set`
callback; the incoming string is matched against the items
(`__sysfs_match_string`) and a miss is returned as is; the `set` failure
is propagated; on success the full input length is consumed. -/
def counter_signal_enum_write {δ : Type} (e : counter_signal_enum_ext δ)
    (buf : String) (len : Nat) (d : δ) : Except Int Nat × δ :=
  match e.set with
  | none => (.error (-EINVAL), d)
  | some set =>
    match __sysfs_match_string e.items buf with
    | .error code => (.error code, d)
    | .ok index =>
      match set index d with
      | .error err => (.error err, d)
      | .ok d' => (.ok len, d')

/-- Count enum extension descriptor (`struct counter_count_enum_ext`). -/
structure counter_count_enum_ext (δ : Type) where
  items : List String
  get : Option (δ → Except Int (Nat × δ))
  set : Option (Nat → δ → Except Int δ)

/-- Translation of `counter_count_enum_read` (same logic as the Signal
variant, repeated in the source). -/
def counter_count_enum_read {δ : Type} (e : counter_count_enum_ext δ)
    (d : δ) : RRes × δ :=
  match e.get with
  | none => (.err (-EINVAL), d)
  | some get =>
    match get d with
    | .error err => (.err err, d)
    | .ok (index, d') =>
      if index ≥ e.items.length then (.err (-EINVAL), d')
      else
        match e.items.get? index with
        | some it => (.ok (it ++ "\n"), d')
        | none => (.ub, d')

/-- Translation of `counter_count_enum_write` (same logic as the Signal
variant, repeated in the source). -/
def counter_count_enum_write {δ : Type} (e : counter_count_enum_ext δ)
    (buf : String) (len : Nat) (d : δ) : Except Int Nat × δ :=
  match e.set with
  | none => (.error (-EINVAL), d)
  | some set =>
    match __sysfs_match_string e.items buf with
    | .error code => (.error code, d)
    | .ok index =>
      match set index d with
      | .error err => (.error err, d)
      | .ok d' => (.ok len, d')

/-- Device enum extension descriptor (`struct counter_device_enum_ext`). -/
structure counter_device_enum_ext (δ : Type) where
  items : List String
  get : Option (δ → Except Int (Nat × δ))
  set : Option (Nat → δ → Except Int δ)

/-- Translation of `counter_device_enum_read` (same logic as the Signal
variant, repeated in the source). -/
def counter_device_enum_read {δ : Type} (e : counter_device_enum_ext δ)
    (d : δ) : RRes × δ :=
  match e.get with
  | none => (.err (-EINVAL), d)
  | some get =>
    match get d with
    | .error err => (.err err, d)
    | .ok (index, d') =>
      if index ≥ e.items.length then (.err (-EINVAL), d')
      else
        match e.items.get? index with
        | some it => (.ok (it ++ "\n"), d')
        | none => (.ub, d')

/-! ### Dispatch thunks

Each thunk is translated with the driver accessor it invokes supplied as
a function over an abstract driver state `δ`; the entity-model node the
thunk may touch is passed in and returned. -/

/-- Translation of `counter_function_show`: propagates a `function_get`
failure, caches the reported index in `count->function`, then reads
`functions_list[func_index]` without a bounds check (an out-of-range index
is an out-of-bounds read, `RRes.ub`). -/
def counter_function_show {δ : Type} (function_get : δ → Except Int (Nat × δ))
    (d : δ) (c : counter_count) : RRes × δ × counter_count :=
  match function_get d with
  | .error err => (.err err, d, c)
  | .ok (func_index, d') =>
    let c' := { c with function := func_index }
    match c'.functions_list.get? func_index with
    | none => (.ub, d', c')
    | some f => (.ok (count_function_str f ++ "\n"), d', c')

/-- Translation of `counter_function_store`: finds the requested function
mode by `sysfs_streq` against the mode strings (`-EINVAL` when absent),
calls `function_set`, propagates its failure, and caches the index only
after success. -/
def counter_function_store {δ : Type} (function_set : Nat → δ → Except Int δ)
    (buf : String) (len : Nat) (d : δ) (c : counter_count) :
    Except Int Nat × δ × counter_count :=
  match first_index_where
      (fun f => sysfs_streq buf (count_function_str f)) c.functions_list with
  | none => (.error (-EINVAL), d, c)
  | some func_index =>
    match function_set func_index d with
    | .error err => (.error err, d, c)
    | .ok d' => (.ok len, d', { c with function := func_index })

/-- Translation of `counter_action_show`: propagates an `action_get`
failure, caches the reported index in `synapse->action`, then reads
`actions_list[action_index]` without a bounds check. -/
def counter_action_show {δ : Type} (action_get : δ → Except Int (Nat × δ))
    (d : δ) (syn : counter_synapse) : RRes × δ × counter_synapse :=
  match action_get d with
  | .error err => (.err err, d, syn)
  | .ok (action_index, d') =>
    let syn' := { syn with action := action_index }
    match syn'.actions_list.get? action_index with
    | none => (.ub, d', syn')
    | some a => (.ok (synapse_action_str a ++ "\n"), d', syn')

/-- Translation of `counter_action_store`: finds the requested action mode
by `sysfs_streq` against the mode strings (`-EINVAL` when absent), calls
`action_set`, propagates its failure, and caches the index only after
success. -/
def counter_action_store {δ : Type} (action_set : Nat → δ → Except Int δ)
    (buf : String) (len : Nat) (d : δ) (syn : counter_synapse) :
    Except Int Nat × δ × counter_synapse :=
  match first_index_where
      (fun a => sysfs_streq buf (synapse_action_str a)) syn.actions_list with
  | none => (.error (-EINVAL), d, syn)
  | some action_index =>
    match action_set action_index d with
    | .error err => (.error err, d, syn)
    | .ok d' => (.ok len, d', { syn with action := action_index })

/-- Translation of `counter_signal_show`: plain pass-through of the
device's `signal_read` accessor (no entity-model state involved). -/
def counter_signal_show {δ : Type} (signal_read : δ → Except Int (String × δ))
    (d : δ) : RRes × δ :=
  match signal_read d with
  | .error err => (.err err, d)
  | .ok (s, d') => (.ok s, d')

/-- Translation of `counter_count_show`: plain pass-through of
`count_read`. -/
def counter_count_show {δ : Type} (count_read : δ → Except Int (String × δ))
    (d : δ) : RRes × δ :=
  match count_read d with
  | .error err => (.err err, d)
  | .ok (s, d') => (.ok s, d')

/-- Translation of `counter_count_store`: plain pass-through of
`count_write`; success consumes the full input length. -/
def counter_count_store {δ : Type} (count_write : String → δ → Except Int δ)
    (buf : String) (len : Nat) (d : δ) : Except Int Nat × δ :=
  match count_write buf d with
  | .error err => (.error err, d)
  | .ok d' => (.ok len, d')

/-- Translation of `counter_device_attr_name_show`. -/
def counter_device_attr_name_show (nm : String) : String :=
  nm ++ "\n"

/-- Translation of `counter_device_attr_size_show` (`"%zu\n"`). -/
def counter_device_attr_size_show (n : Nat) : String :=
  toString n ++ "\n"

/-- Translation of `counter_synapse_action_available_show`: every action
string in list order, each followed by a newline. -/
def counter_synapse_action_available_show (acts : List SynapseAction) : String :=
  String.join (acts.map (fun a => synapse_action_str a ++ "\n"))

/-- Translation of `counter_count_function_available_show`. -/
def counter_count_function_available_show (fns : List CountFunction) : String :=
  String.join (fns.map (fun f => count_function_str f ++ "\n"))

/-! ### Properties of the linear search -/

theorem first_index_where_spec {α : Type} {p : α → Bool} :
    ∀ {l : List α} {j : Nat}, first_index_where p l = some j →
      ∃ h : j < l.length, p (l.get ⟨j, h⟩) = true := by
  intro l
  induction l with
  | nil => intro j h; exact absurd h (by simp [first_index_where])
  | cons x rest ih =>
    intro j h
    rw [first_index_where] at h
    by_cases hp : p x
    · rw [if_pos hp] at h
      cases h
      exact ⟨Nat.succ_pos _, hp⟩
    · rw [if_neg hp] at h
      match hr : first_index_where p rest with
      | none => rw [hr] at h; exact absurd h (by simp)
      | some j' =>
        rw [hr] at h
        simp only [Option.map_some'] at h
        cases h
        obtain ⟨h', hp'⟩ := ih hr
        exact ⟨Nat.succ_lt_succ h', by simpa using hp'⟩

theorem first_index_where_le {α : Type} {p : α → Bool} :
    ∀ {l : List α} {i : Nat} (h : i < l.length), p (l.get ⟨i, h⟩) = true →
      ∃ j, first_index_where p l = some j ∧ j ≤ i := by
  intro l
  induction l with
  | nil => intro i h; exact absurd h (by simp)
  | cons x rest ih =>
    intro i h hp
    by_cases hx : p x
    · exact ⟨0, by simp [first_index_where, hx], Nat.zero_le _⟩
    · match i, h with
      | 0, h => exact absurd (by simpa using hp) hx
      | i' + 1, h =>
        obtain ⟨j, hj, hle⟩ := ih (Nat.lt_of_succ_lt_succ h) (by simpa using hp)
        exact ⟨j + 1, by simp [first_index_where, hx, hj], Nat.succ_le_succ hle⟩

theorem sysfs_streq_refl (s : String) : sysfs_streq s s = true := by
  simp [sysfs_streq]

/-! ### Claim theorems: enum adapter and thunks -/

/-- C10: calling `counter_unregister` with a NULL Counter pointer is a
no-op: it performs no host-side removal, modifies no state and does not
fail. -/
theorem claim_C10 (σ : Mem) : counter_unregister none σ = σ := rfl

/-- C6: for every Enum Adapter instance (the Signal and device variants
cited by the claim), `read` fails with `-EINVAL` (Unsupported) when the
`get` callback is absent, fails with `-EINVAL` (Internal) when `get`
reports an index not below the number of items, and otherwise produces
exactly the indexed item followed by a newline. -/
theorem claim_C6 {δ : Type} (e : counter_signal_enum_ext δ)
    (e2 : counter_device_enum_ext δ) (d : δ) :
    (e.get = none → counter_signal_enum_read e d = (.err (-EINVAL), d)) ∧
    (∀ get i d', e.get = some get → get d = .ok (i, d') →
      e.items.length ≤ i →
      counter_signal_enum_read e d = (.err (-EINVAL), d')) ∧
    (∀ get i d' (h : i < e.items.length), e.get = some get →
      get d = .ok (i, d') →
      counter_signal_enum_read e d = (.ok (e.items.get ⟨i, h⟩ ++ "\n"), d')) ∧
    (e2.get = none → counter_device_enum_read e2 d = (.err (-EINVAL), d)) ∧
    (∀ get i d', e2.get = some get → get d = .ok (i, d') →
      e2.items.length ≤ i →
      counter_device_enum_read e2 d = (.err (-EINVAL), d')) ∧
    (∀ get i d' (h : i < e2.items.length), e2.get = some get →
      get d = .ok (i, d') →
      counter_device_enum_read e2 d = (.ok (e2.items.get ⟨i, h⟩ ++ "\n"), d')) := by
  refine ⟨?_, ?_, ?_, ?_, ?_, ?_⟩
  · intro hg; simp [counter_signal_enum_read, hg]
  · intro get i d' hg hr hlen
    simp [counter_signal_enum_read, hg, hr, Nat.le_of_eq, hlen]
  · intro get i d' h hg hr
    simp [counter_signal_enum_read, hg, hr, Nat.not_le.mpr h,
      List.getElem?_eq_getElem h]
  · intro hg; simp [counter_device_enum_read, hg]
  · intro get i d' hg hr hlen
    simp [counter_device_enum_read, hg, hr, hlen]
  · intro get i d' h hg hr
    simp [counter_device_enum_read, hg, hr, Nat.not_le.mpr h,
      List.getElem?_eq_getElem h]

/-- Witness for C6 at a concrete instance. -/
theorem claim_C6_witness :
    counter_signal_enum_read
      (⟨["low", "high"], some (fun d : Unit => .ok (1, d)), none⟩ :
        counter_signal_enum_ext Unit) () = (.ok "high\n", ()) ∧
    counter_device_enum_read
      (⟨["a"], some (fun d : Unit => .ok (7, d)), none⟩ :
        counter_device_enum_ext Unit) () = (.err (-EINVAL), ()) := by
  constructor
  · exact (claim_C6 ⟨["low", "high"], some (fun d : Unit => .ok (1, d)), none⟩
      ⟨["a"], some (fun d : Unit => .ok (7, d)), none⟩ ()).2.2.1
      _ 1 () (by decide) rfl rfl
  · exact (claim_C6 (⟨["low", "high"], some (fun d : Unit => .ok (1, d)), none⟩ :
      counter_signal_enum_ext Unit)
      ⟨["a"], some (fun d : Unit => .ok (7, d)), none⟩ ()).2.2.2.2.1
      _ 7 () rfl rfl (by decide)

/-- C5: for every Enum Adapter instance (the Signal and Count variants
cited by the claim), `write` fails with `-EINVAL` (Unsupported) when the
`set` callback is absent; when the trimmed input matches no item it fails
with `-EINVAL` (NotFound) and `set` is never invoked (the result is the
same for every `set` callback and the driver state is untouched); when it
matches item `i`, `set` is called with `i`, a `set` failure is propagated,
and on success the full input length is consumed. -/
theorem claim_C5 {δ : Type} (e : counter_signal_enum_ext δ)
    (e2 : counter_count_enum_ext δ) (buf : String) (len : Nat) (d : δ) :
    (e.set = none → counter_signal_enum_write e buf len d = (.error (-EINVAL), d)) ∧
    (∀ st, e.set = some st →
      first_index_where (fun item => sysfs_streq item buf) e.items = none →
      counter_signal_enum_write e buf len d = (.error (-EINVAL), d)) ∧
    (∀ st i, e.set = some st →
      first_index_where (fun item => sysfs_streq item buf) e.items = some i →
      (∀ er, st i d = .error er →
        counter_signal_enum_write e buf len d = (.error er, d)) ∧
      (∀ d', st i d = .ok d' →
        counter_signal_enum_write e buf len d = (.ok len, d'))) ∧
    (e2.set = none → counter_count_enum_write e2 buf len d = (.error (-EINVAL), d)) ∧
    (∀ st, e2.set = some st →
      first_index_where (fun item => sysfs_streq item buf) e2.items = none →
      counter_count_enum_write e2 buf len d = (.error (-EINVAL), d)) ∧
    (∀ st i, e2.set = some st →
      first_index_where (fun item => sysfs_streq item buf) e2.items = some i →
      (∀ er, st i d = .error er →
        counter_count_enum_write e2 buf len d = (.error er, d)) ∧
      (∀ d', st i d = .ok d' →
        counter_count_enum_write e2 buf len d = (.ok len, d'))) := by
  refine ⟨?_, ?_, ?_, ?_, ?_, ?_⟩
  · intro hs; simp [counter_signal_enum_write, hs]
  · intro st hs hm
    simp [counter_signal_enum_write, hs, __sysfs_match_string, hm]
  · intro st i hs hm
    constructor
    · intro er hr
      simp [counter_signal_enum_write, hs, __sysfs_match_string, hm, hr]
    · intro d' hr
      simp [counter_signal_enum_write, hs, __sysfs_match_string, hm, hr]
  · intro hs; simp [counter_count_enum_write, hs]
  · intro st hs hm
    simp [counter_count_enum_write, hs, __sysfs_match_string, hm]
  · intro st i hs hm
    constructor
    · intro er hr
      simp [counter_count_enum_write, hs, __sysfs_match_string, hm, hr]
    · intro d' hr
      simp [counter_count_enum_write, hs, __sysfs_match_string, hm, hr]

/-- Witness for C5 at a concrete instance. -/
theorem claim_C5_witness :
    counter_signal_enum_write
      (⟨["low", "high"], none, some (fun i (_ : Nat) => .ok i)⟩ :
        counter_signal_enum_ext Nat) "high" 5 0 = (.ok 5, 1) ∧
    counter_count_enum_write
      (⟨["low", "high"], none, some (fun i (_ : Nat) => .ok i)⟩ :
        counter_count_enum_ext Nat) "nope" 4 0 = (.error (-EINVAL), 0) := by
  constructor
  · exact ((claim_C5 ⟨["low", "high"], none, some (fun i (_ : Nat) => .ok i)⟩
      ⟨[], none, none⟩ "high" 5 0).2.2.1 _ 1 rfl (by decide)).2 1 rfl
  · exact (claim_C5 (⟨[], none, none⟩ : counter_signal_enum_ext Nat)
      ⟨["low", "high"], none, some (fun i (_ : Nat) => .ok i)⟩ "nope" 4 0).2.2.2.2.1
      _ rfl (by decide)

/-- Round-trip enum adapter instance whose driver state is the stored
index itself (`get` returns it, `set` stores it). -/
def enumRT (items : List String) : counter_signal_enum_ext Nat :=
  { items := items, get := some (fun s => .ok (s, s)),
    set := some (fun i _ => .ok i) }

/-- Counterexample for C7: for items `["x\n", "x"]` and `i = 1`, writing
`items[1] = "x"` trim-matches the earlier entry `"x\n"` first, so the
subsequent read yields `"x\n" ++ "\n"` and not `items[1] ++ "\n"`. -/
theorem claim_C7_counterexample :
    (counter_signal_enum_write (enumRT ["x\n", "x"]) "x" 1 0).1 = .ok 1 ∧
    (counter_signal_enum_read (enumRT ["x\n", "x"])
      (counter_signal_enum_write (enumRT ["x\n", "x"]) "x" 1 0).2).1 =
      .ok "x\n\n" ∧
    (RRes.ok "x\n\n" ≠ RRes.ok ("x" ++ "\n")) := by
  refine ⟨rfl, rfl, by decide⟩

/-- C7 amended: with `get`/`set` that simply store and return the index,
`write(items[i])` followed by `read()` yields `items[i] ++ "\n"` provided
every earlier item that trim-matches `items[i]` equals it (which holds in
particular when the items are pairwise distinct and newline-free); without
that proviso the write matches an earlier trim-equivalent entry, see the
counterexample. -/
theorem claim_C7 (items : List String) (i : Nat) (h : i < items.length)
    (len : Nat) (d0 : Nat)
    (hnd : ∀ j (hj : j < items.length), j < i →
      sysfs_streq (items.get ⟨j, hj⟩) (items.get ⟨i, h⟩) = true →
      items.get ⟨j, hj⟩ = items.get ⟨i, h⟩) :
    (counter_signal_enum_write (enumRT items) (items.get ⟨i, h⟩) len d0).1 =
      .ok len ∧
    (counter_signal_enum_read (enumRT items)
        (counter_signal_enum_write (enumRT items) (items.get ⟨i, h⟩) len d0).2).1 =
      .ok (items.get ⟨i, h⟩ ++ "\n") := by
  obtain ⟨j, hj, hle⟩ :=
    first_index_where_le (p := fun item => sysfs_streq item (items.get ⟨i, h⟩))
      h (sysfs_streq_refl _)
  obtain ⟨hjlt, hpj⟩ := first_index_where_spec hj
  have heq : items.get ⟨j, hjlt⟩ = items.get ⟨i, h⟩ := by
    rcases Nat.lt_or_ge j i with hji | hij
    · exact hnd j hjlt hji hpj
    · have : j = i := Nat.le_antisymm hle hij
      subst this
      rfl
  simp only [List.get_eq_getElem] at hj heq
  have hw : counter_signal_enum_write (enumRT items) (items.get ⟨i, h⟩) len d0 =
      (.ok len, j) := by
    simp [counter_signal_enum_write, enumRT, __sysfs_match_string, hj]
  refine ⟨by rw [hw], ?_⟩
  rw [hw]
  simp [counter_signal_enum_read, enumRT, Nat.not_le.mpr hjlt,
    List.getElem?_eq_getElem hjlt, heq]

/-- Witness for C7 at a concrete instance. -/
theorem claim_C7_witness :
    (counter_signal_enum_write (enumRT ["low", "high"])
       (["low", "high"].get ⟨0, by decide⟩) 3 0).1 = .ok 3 ∧
    (counter_signal_enum_read (enumRT ["low", "high"])
        (counter_signal_enum_write (enumRT ["low", "high"])
          (["low", "high"].get ⟨0, by decide⟩) 3 0).2).1 =
      .ok (["low", "high"].get ⟨0, by decide⟩ ++ "\n") :=
  claim_C7 ["low", "high"] 0 (by decide) 3 0
    (fun j _ hji _ => absurd hji (Nat.not_lt_zero j))

/-- Concrete Count used by the C3 counterexample: one available function,
so a driver-reported index of 5 is out of range. -/
def cx3count : counter_count :=
  { id := 0, name := none, function := 0,
    functions_list := [.increase], synapses := [], ext := [] }

/-- Counterexample for C3: when `function_get` reports index 5 against a
one-entry `functions_list`, `counter_function_show` does not fail with
`-EINVAL`; it caches the out-of-range index and performs the out-of-bounds
list read (`RRes.ub`). -/
theorem claim_C3_counterexample :
    (counter_function_show (fun _ : Unit => .ok (5, ())) () cx3count).1 = .ub ∧
    (counter_function_show (fun _ : Unit => .ok (5, ())) () cx3count).1 ≠
      .err (-EINVAL) ∧
    (counter_function_show (fun _ : Unit => .ok (5, ())) () cx3count).2.2.function
      = 5 := by
  refine ⟨rfl, by decide, rfl⟩

/-- C3 amended: the bounds check exists only in the Enum Adapter reads,
which fail with `-EINVAL` (Internal) on an out-of-range index from `get`;
`counter_function_show` and `counter_action_show` perform no such check —
they cache the driver-reported index and use it to index the
functions/actions list, an out-of-bounds read when it is out of range. -/
theorem claim_C3 {δ : Type} (e : counter_signal_enum_ext δ)
    (ec : counter_count_enum_ext δ) (ed : counter_device_enum_ext δ) (d : δ) :
    (∀ get i d', e.get = some get → get d = .ok (i, d') →
      e.items.length ≤ i →
      counter_signal_enum_read e d = (.err (-EINVAL), d')) ∧
    (∀ get i d', ec.get = some get → get d = .ok (i, d') →
      ec.items.length ≤ i →
      counter_count_enum_read ec d = (.err (-EINVAL), d')) ∧
    (∀ get i d', ed.get = some get → get d = .ok (i, d') →
      ed.items.length ≤ i →
      counter_device_enum_read ed d = (.err (-EINVAL), d')) ∧
    (∀ (fg : δ → Except Int (Nat × δ)) i d' (c : counter_count),
      fg d = .ok (i, d') → c.functions_list.length ≤ i →
      counter_function_show fg d c = (.ub, d', { c with function := i })) ∧
    (∀ (ag : δ → Except Int (Nat × δ)) i d' (syn : counter_synapse),
      ag d = .ok (i, d') → syn.actions_list.length ≤ i →
      counter_action_show ag d syn = (.ub, d', { syn with action := i })) := by
  refine ⟨?_, ?_, ?_, ?_, ?_⟩
  · intro get i d' hg hr hlen
    simp [counter_signal_enum_read, hg, hr, hlen]
  · intro get i d' hg hr hlen
    simp [counter_count_enum_read, hg, hr, hlen]
  · intro get i d' hg hr hlen
    simp [counter_device_enum_read, hg, hr, hlen]
  · intro fg i d' c hr hlen
    simp [counter_function_show, hr, List.getElem?_eq_none hlen]
  · intro ag i d' syn hr hlen
    simp [counter_action_show, hr, List.getElem?_eq_none hlen]

/-- Witness for C3 at concrete instances. -/
theorem claim_C3_witness :
    counter_signal_enum_read
      (⟨["a"], some (fun d : Unit => .ok (3, d)), none⟩ :
        counter_signal_enum_ext Unit) () = (.err (-EINVAL), ()) ∧
    counter_action_show (fun _ : Unit => .ok (9, ())) ()
      (⟨0, [.risingEdge], ⟨3, none, []⟩⟩ : counter_synapse) =
      (.ub, (), ⟨9, [.risingEdge], ⟨3, none, []⟩⟩) := by
  constructor
  · exact (claim_C3 ⟨["a"], some (fun d : Unit => .ok (3, d)), none⟩
      ⟨[], none, none⟩ ⟨[], none, none⟩ ()).1 _ 3 () rfl rfl (by decide)
  · exact (claim_C3 (⟨["a"], some (fun d : Unit => .ok (3, d)), none⟩ :
      counter_signal_enum_ext Unit)
      ⟨[], none, none⟩ ⟨[], none, none⟩ ()).2.2.2.2 _ 9 ()
      ⟨0, [.risingEdge], ⟨3, none, []⟩⟩ rfl (by decide)

/-- C8: the dispatch thunks never change the structural fields of the
entity model; the only fields written are `count.function` (by
`counter_function_show`/`counter_function_store`) and `synapse.action`
(by `counter_action_show`/`counter_action_store`), each updated exactly
when the corresponding driver accessor call succeeds — on an accessor
failure the cache keeps its previous value.  (The remaining thunks take no
entity-model state at all in this embedding; their types rule out any
mutation.) -/
theorem claim_C8 {δ : Type} (fg : δ → Except Int (Nat × δ))
    (fs : Nat → δ → Except Int δ) (ag : δ → Except Int (Nat × δ))
    (aset : Nat → δ → Except Int δ) (buf : String) (len : Nat) (d : δ)
    (c : counter_count) (syn : counter_synapse) :
    ((counter_function_show fg d c).2.2 =
      match fg d with
      | .ok (i, _) => { c with function := i }
      | .error _ => c) ∧
    ((counter_function_store fs buf len d c).2.2 =
      match first_index_where
          (fun f => sysfs_streq buf (count_function_str f)) c.functions_list with
      | none => c
      | some i =>
        match fs i d with
        | .ok _ => { c with function := i }
        | .error _ => c) ∧
    ((counter_action_show ag d syn).2.2 =
      match ag d with
      | .ok (i, _) => { syn with action := i }
      | .error _ => syn) ∧
    ((counter_action_store aset buf len d syn).2.2 =
      match first_index_where
          (fun a => sysfs_streq buf (synapse_action_str a)) syn.actions_list with
      | none => syn
      | some i =>
        match aset i d with
        | .ok _ => { syn with action := i }
        | .error _ => syn) ∧
    ((counter_function_show fg d c).2.2.id = c.id ∧
     (counter_function_show fg d c).2.2.name = c.name ∧
     (counter_function_show fg d c).2.2.functions_list = c.functions_list ∧
     (counter_function_show fg d c).2.2.synapses = c.synapses ∧
     (counter_function_show fg d c).2.2.ext = c.ext) ∧
    ((counter_function_store fs buf len d c).2.2.id = c.id ∧
     (counter_function_store fs buf len d c).2.2.name = c.name ∧
     (counter_function_store fs buf len d c).2.2.functions_list = c.functions_list ∧
     (counter_function_store fs buf len d c).2.2.synapses = c.synapses ∧
     (counter_function_store fs buf len d c).2.2.ext = c.ext) ∧
    ((counter_action_show ag d syn).2.2.actions_list = syn.actions_list ∧
     (counter_action_show ag d syn).2.2.signal = syn.signal) ∧
    ((counter_action_store aset buf len d syn).2.2.actions_list =
       syn.actions_list ∧
     (counter_action_store aset buf len d syn).2.2.signal = syn.signal) := by
  have hfs : (counter_function_show fg d c).2.2 =
      match fg d with
      | .ok (i, _) => { c with function := i }
      | .error _ => c := by
    rcases hr : fg d with er | ⟨i, d'⟩
    · simp [counter_function_show, hr]
    · rcases hm : c.functions_list[i]? with _ | f
      · simp [counter_function_show, hr, hm]
      · simp [counter_function_show, hr, hm]
  have hfst : (counter_function_store fs buf len d c).2.2 =
      match first_index_where
          (fun f => sysfs_streq buf (count_function_str f)) c.functions_list with
      | none => c
      | some i =>
        match fs i d with
        | .ok _ => { c with function := i }
        | .error _ => c := by
    rcases hm : first_index_where
        (fun f => sysfs_streq buf (count_function_str f)) c.functions_list
        with _ | i
    · simp [counter_function_store, hm]
    · rcases hr : fs i d with er | d'
      · simp [counter_function_store, hm, hr]
      · simp [counter_function_store, hm, hr]
  have has : (counter_action_show ag d syn).2.2 =
      match ag d with
      | .ok (i, _) => { syn with action := i }
      | .error _ => syn := by
    rcases hr : ag d with er | ⟨i, d'⟩
    · simp [counter_action_show, hr]
    · rcases hm : syn.actions_list[i]? with _ | a
      · simp [counter_action_show, hr, hm]
      · simp [counter_action_show, hr, hm]
  have hast : (counter_action_store aset buf len d syn).2.2 =
      match first_index_where
          (fun a => sysfs_streq buf (synapse_action_str a)) syn.actions_list with
      | none => syn
      | some i =>
        match aset i d with
        | .ok _ => { syn with action := i }
        | .error _ => syn := by
    rcases hm : first_index_where
        (fun a => sysfs_streq buf (synapse_action_str a)) syn.actions_list
        with _ | i
    · simp [counter_action_store, hm]
    · rcases hr : aset i d with er | d'
      · simp [counter_action_store, hm, hr]
      · simp [counter_action_store, hm, hr]
  refine ⟨hfs, hfst, has, hast, ?_, ?_, ?_, ?_⟩
  · rw [hfs]; split <;> simp
  · rw [hfst]; split
    · simp
    · split <;> simp
  · rw [has]; split <;> simp
  · rw [hast]; split
    · simp
    · split <;> simp

/-! ### Claim theorems: concrete build scenario and registration -/

/-- A memory state with an always-succeeding allocator and an empty host. -/
def mem0 : Mem :=
  { oracle := fun _ => true, tick := 0, next := 0, live := 0,
    idaNext := 0, idaLive := 0, published := [] }

/-- The Signal of the C4 scenario: id 3, no name, no extensions. -/
def sig3 : counter_signal := { id := 3, name := none, ext := [] }

/-- The Synapse of the C4 scenario: Signal 3, actions rising/falling edge. -/
def syn30 : counter_synapse :=
  { action := 0, actions_list := [.risingEdge, .fallingEdge], signal := sig3 }

/-- The Count of the C4 scenario: id 0, functions `[Increase]`, one
Synapse, no extensions. -/
def cnt0 : counter_count :=
  { id := 0, name := none, function := 0, functions_list := [.increase],
    synapses := [syn30], ext := [] }

/-- The device of the C4 scenario (all accessor callbacks present). -/
def dev4 : counter_device :=
  { name := none,
    ops := ⟨true, true, true, true, true, true, true⟩,
    signals := [sig3], counts := [cnt0], ext := [] }

/-- C4: registering the concrete one-Signal/one-Count device builds
exactly the groups `signal3` (endpoint `signal`), `count0` (endpoints
`signal3_action`, `signal3_action_available`, `count`, `function`,
`function_available`, in creation order) and the unnamed device-global
group (endpoints `num_counts` and `num_signals`, both `size`-components
holding 1, whose show produces `"1\n"`) — and no other groups or
endpoints. -/
theorem claim_C4 :
    (counter_register dev4 mem0).1 = 0 ∧
    ((counter_register dev4 mem0).2.1.map (fun ds =>
        ds.groups_list.map (fun g =>
          (g.name.map Prod.snd, g.attrList.reverse.map CAttr.name)))) =
      some [(some "signal3", ["signal"]),
            (some "count0",
              ["signal3_action", "signal3_action_available", "count",
               "function", "function_available"]),
            (none, ["num_counts", "num_signals"])] ∧
    ((counter_register dev4 mem0).2.1.map (fun ds =>
        ds.groups_list.map (fun g =>
          g.attrList.reverse.map CAttr.compData))) =
      some [[.signal sig3],
            [.action syn30 cnt0, .actionAvail [.risingEdge, .fallingEdge],
             .countC cnt0, .countC cnt0, .funcAvail [.increase]],
            [.size 1, .size 1]] ∧
    counter_device_attr_size_show 1 = "1\n" := by
  exact ⟨rfl, rfl, rfl, rfl⟩

/-- A device violating the build-time invariants of the specification:
no Signals and no Counts at all. -/
def devInvalid : counter_device :=
  { name := none,
    ops := ⟨false, false, false, false, false, false, false⟩,
    signals := [], counts := [], ext := [] }

/-- Counterexample for C1: `counter_register` performs no model
validation.  For the invariant-violating device with zero Signals and
zero Counts it returns 0 (success, not an `InvalidModel` error), consumes
instance id 0, and publishes the device — endpoints exist in the host
afterwards. -/
theorem claim_C1_counterexample :
    (counter_register devInvalid mem0).1 = 0 ∧
    (counter_register devInvalid mem0).2.2.idaLive = {0} ∧
    ((counter_register devInvalid mem0).2.2.published.map Prod.fst) = [0] := by
  exact ⟨rfl, rfl, rfl⟩

/-- C1 amended: `counter_register` checks none of the §3 invariants.  A
device declaring no Signals, no Counts, no extensions and no name —
maximally violating §3 — is not rejected with `InvalidModel`: whenever
every allocation succeeds, registration succeeds, an instance id is
consumed and the device-global endpoints are published to the host. -/
theorem claim_C1 (σ : Mem) (hor : σ.oracle = fun _ => true)
    (dev : counter_device) (hs : dev.signals = []) (hc : dev.counts = [])
    (hx : dev.ext = []) (hn : dev.name = none) :
    (counter_register dev σ).1 = 0 ∧
    (counter_register dev σ).2.2.idaLive = σ.idaNext ::ₘ σ.idaLive ∧
    ∃ gs, (counter_register dev σ).2.2.published =
      (σ.idaNext, gs) :: σ.published ∧ gs ≠ [] := by
  simp [counter_register, kmalloc, ida_simple_get,
    prepare_counter_device_groups_list, counter_signals_register,
    counter_counts_register, counter_global_attr_register,
    counter_name_attribute_create, counter_size_attribute_create,
    counter_attribute_create, counter_device_ext_register,
    prepare_counter_device_groups, prepare_groups_arrays, device_add,
    hor, hs, hc, hx, hn, emptyGroup]

/-- Witness for C1 at the concrete invariant-violating device. -/
theorem claim_C1_witness :
    (counter_register devInvalid mem0).1 = 0 ∧
    (counter_register devInvalid mem0).2.2.idaLive = 0 ::ₘ 0 ∧
    ∃ gs, (counter_register devInvalid mem0).2.2.published =
      (0, gs) :: [] ∧ gs ≠ [] :=
  claim_C1 mem0 rfl devInvalid rfl rfl rfl rfl

/-! ### Frame and specification lemmas for the builder -/

/-- The heap-building functions never touch the allocation oracle, the
IDA allocator or the host. -/
def HFrame (σ σ' : Mem) : Prop :=
  σ'.oracle = σ.oracle ∧ σ'.idaNext = σ.idaNext ∧ σ'.idaLive = σ.idaLive ∧
  σ'.published = σ.published

theorem hframe_refl (σ : Mem) : HFrame σ σ := ⟨rfl, rfl, rfl, rfl⟩

theorem hframe_trans {σ₁ σ₂ σ₃ : Mem} (h : HFrame σ₁ σ₂) (h' : HFrame σ₂ σ₃) :
    HFrame σ₁ σ₃ :=
  ⟨h'.1.trans h.1, h'.2.1.trans h.2.1, h'.2.2.1.trans h.2.2.1,
   h'.2.2.2.trans h.2.2.2⟩

theorem hframe_kfree (p : Nat) (σ : Mem) : HFrame σ (kfree p σ) :=
  ⟨rfl, rfl, rfl, rfl⟩

theorem hframe_kfreeOpt (p : Option Nat) (σ : Mem) : HFrame σ (kfreeOpt p σ) := by
  cases p <;> exact ⟨rfl, rfl, rfl, rfl⟩

theorem hframe_free_attr_list :
    ∀ (l : List CAttr) (σ : Mem), HFrame σ (free_counter_device_attr_list l σ)
  | [], σ => hframe_refl σ
  | p :: rest, σ => hframe_free_attr_list rest
      (kfree p.self (kfree p.comp (kfree p.nameId σ)))

/-- Specification of `counter_attribute_create`: on success exactly the
new attribute is prepended and exactly its two allocations (node and name
string) are added to the heap; on failure nothing changes. -/
theorem counter_attribute_create_spec (g : Group) (pfx nm : String)
    (sh : Option ShowFn) (st : Option StoreFn) (comp : Nat × Component)
    (σ : Mem) :
    ((counter_attribute_create g pfx nm sh st comp σ).1 = 0 →
      ∃ a : CAttr,
        (counter_attribute_create g pfx nm sh st comp σ).2.1 =
          { g with attrList := a :: g.attrList, num_attr := g.num_attr + 1 } ∧
        a.name = pfx ++ nm ∧ a.showFn = sh ∧ a.storeFn = st ∧
        a.comp = comp.1 ∧ a.compData = comp.2 ∧
        (counter_attribute_create g pfx nm sh st comp σ).2.2.live =
          a.nameId ::ₘ a.self ::ₘ σ.live) ∧
    ((counter_attribute_create g pfx nm sh st comp σ).1 ≠ 0 →
      (counter_attribute_create g pfx nm sh st comp σ).2.1 = g ∧
      (counter_attribute_create g pfx nm sh st comp σ).2.2.live = σ.live) ∧
    HFrame σ (counter_attribute_create g pfx nm sh st comp σ).2.2 := by
  by_cases h1 : σ.oracle σ.tick
  · by_cases h2 : σ.oracle (σ.tick + 1)
    · refine ⟨fun _ => ⟨⟨σ.next, σ.next + 1, pfx ++ nm, sh, st, comp.1, comp.2⟩,
        ?_, rfl, rfl, rfl, rfl, rfl, ?_⟩, fun h => absurd ?_ h, ?_⟩
      · simp [counter_attribute_create, kmalloc, h1, h2]
      · simp [counter_attribute_create, kmalloc, h1, h2]
      · simp [counter_attribute_create, kmalloc, h1, h2]
      · simp [counter_attribute_create, kmalloc, h1, h2, HFrame]
    · refine ⟨fun h => absurd h ?_, fun _ => ⟨?_, ?_⟩, ?_⟩
      · simp [counter_attribute_create, kmalloc, h1, h2, ENOMEM]
      · simp [counter_attribute_create, kmalloc, h1, h2]
      · simp [counter_attribute_create, kmalloc, h1, h2, kfree,
          Multiset.erase_cons_head]
      · simp [counter_attribute_create, kmalloc, h1, h2, kfree, HFrame]
  · refine ⟨fun h => absurd h ?_, fun _ => ⟨?_, ?_⟩, ?_⟩
    · simp [counter_attribute_create, kmalloc, h1, ENOMEM]
    · simp [counter_attribute_create, kmalloc, h1]
    · simp [counter_attribute_create, kmalloc, h1]
    · simp [counter_attribute_create, kmalloc, h1, HFrame]

/-! ### Claim C9: publication order -/

/-- Arguments of one `counter_attribute_create` call. -/
structure AttrReq where
  pfx : String
  nm : String
  sh : Option ShowFn
  st : Option StoreFn
  comp : Nat × Component

/-- Sequential attribute creation into one group, the way every builder
phase issues its `counter_attribute_create` calls. -/
def create_attrs_fold : Group → List AttrReq → Mem → Int × Group × Mem
  | g, [], σ => (0, g, σ)
  | g, r :: rest, σ =>
    match counter_attribute_create g r.pfx r.nm r.sh r.st r.comp σ with
    | (e, g', σ') => if e = 0 then create_attrs_fold g' rest σ' else (e, g', σ')

theorem create_attrs_fold_names :
    ∀ (reqs : List AttrReq) (g : Group) (σ : Mem),
      (create_attrs_fold g reqs σ).1 = 0 →
      (create_attrs_fold g reqs σ).2.1.attrList.map CAttr.name =
        (reqs.map (fun r => r.pfx ++ r.nm)).reverse ++
          g.attrList.map CAttr.name := by
  intro reqs
  induction reqs with
  | nil => intro g σ _; simp [create_attrs_fold]
  | cons r rest ih =>
    intro g σ he
    rw [create_attrs_fold] at he ⊢
    rcases hc : counter_attribute_create g r.pfx r.nm r.sh r.st r.comp σ
      with ⟨e, g', σ'⟩
    rw [hc] at he
    by_cases h0 : e = 0
    · obtain ⟨a, hg, hnm, -, -, -, -, -⟩ :=
        (counter_attribute_create_spec g r.pfx r.nm r.sh r.st r.comp σ).1
          (by rw [hc]; exact h0)
      rw [hc] at hg
      dsimp only at hg he ⊢
      simp only [h0, eq_self_iff_true, if_true] at he ⊢
      rw [ih g' σ' he, hg]
      simp [hnm]
    · dsimp only at he
      rw [if_neg h0] at he
      exact absurd he h0

/-- C9: within each group the attribute array handed to the host lists
the endpoints in reverse creation order: `counter_attribute_create`
prepends each new attribute to the group's list, and
`prepare_counter_device_groups` copies the list head first into the
published array, so the most recently built endpoint appears first. -/
theorem claim_C9 :
    (∀ (g : Group) (pfx nm : String) (sh : Option ShowFn)
       (st : Option StoreFn) (comp : Nat × Component) (σ : Mem),
      (counter_attribute_create g pfx nm sh st comp σ).1 = 0 →
      ∃ a : CAttr, a.name = pfx ++ nm ∧
        (counter_attribute_create g pfx nm sh st comp σ).2.1.attrList =
          a :: g.attrList) ∧
    (∀ (reqs : List AttrReq) (σ : Mem),
      (create_attrs_fold emptyGroup reqs σ).1 = 0 →
      (create_attrs_fold emptyGroup reqs σ).2.1.attrList.map CAttr.name =
        (reqs.map (fun r => r.pfx ++ r.nm)).reverse) ∧
    (∀ (groups : List Group) (σ : Mem),
      (prepare_groups_arrays groups σ).1 = 0 →
      (prepare_groups_arrays groups σ).2.1.map
          (fun g => g.attrsArr.map Prod.snd) =
        groups.map (fun g => some g.attrList)) := by
  refine ⟨?_, ?_, ?_⟩
  · intro g pfx nm sh st comp σ he
    obtain ⟨a, hg, hnm, -⟩ :=
      (counter_attribute_create_spec g pfx nm sh st comp σ).1 he
    exact ⟨a, hnm, by rw [hg]⟩
  · intro reqs σ he
    simpa [emptyGroup] using create_attrs_fold_names reqs emptyGroup σ he
  · intro groups
    induction groups with
    | nil => intro σ _; simp [prepare_groups_arrays]
    | cons g rest ih =>
      intro σ he
      rw [prepare_groups_arrays] at he ⊢
      rcases hk : kmalloc σ with ⟨_ | arrId, σ₁⟩
      · rw [hk] at he
        norm_num [ENOMEM] at he
      · rw [hk] at he
        dsimp only at he ⊢
        rcases hr : prepare_groups_arrays rest σ₁ with ⟨e, rest', σ₂⟩
        rw [hr] at he
        dsimp only at he
        have h2 := ih σ₁ (by rw [hr]; exact he)
        rw [hr] at h2
        simpa using h2

/-- Witness for C9 at concrete inputs. -/
theorem claim_C9_witness :
    (∃ a : CAttr, a.name = "" ++ "count" ∧
      (counter_attribute_create emptyGroup "" "count" none none
        (0, .size 0) mem0).2.1.attrList = a :: emptyGroup.attrList) ∧
    (create_attrs_fold emptyGroup
        [⟨"", "count", none, none, (0, .size 0)⟩,
         ⟨"", "function", none, none, (1, .size 1)⟩]
        mem0).2.1.attrList.map CAttr.name = ["function", "count"] ∧
    (prepare_groups_arrays [emptyGroup] mem0).2.1.map
        (fun g => g.attrsArr.map Prod.snd) = [some []] := by
  refine ⟨(claim_C9.1 emptyGroup "" "count" none none (0, .size 0) mem0 rfl),
    ?_, claim_C9.2.2 [emptyGroup] mem0 rfl⟩
  have := claim_C9.2.1
    [⟨"", "count", none, none, (0, .size 0)⟩,
     ⟨"", "function", none, none, (1, .size 1)⟩] mem0 rfl
  simpa using this

/-! ### Claim C2: all-or-nothing build

The heap bookkeeping: `listAllocs` collects the allocation ids owned by a
list of built attributes (name string, component, node — the same ids
`free_counter_device_attr_list` releases), `groupAllocs` those owned by a
whole group, and the specification lemmas below show that every builder
function either adds exactly the ids its output owns or, on failure,
restores the live multiset. -/

/-- Allocation ids owned by a built attribute list. -/
def listAllocs : List CAttr → Multiset Nat
  | [] => 0
  | a :: rest => a.nameId ::ₘ a.comp ::ₘ a.self ::ₘ listAllocs rest

/-- Allocation ids owned by an optional named allocation. -/
def optAlloc : Option (Nat × String) → Multiset Nat
  | none => 0
  | some (i, _) => {i}

/-- Allocation ids owned by the optional published attribute array. -/
def arrAlloc : Option (Nat × List CAttr) → Multiset Nat
  | none => 0
  | some (i, _) => {i}

/-- Allocation ids owned by a group (name, pointer array, attributes). -/
def groupAllocs (g : Group) : Multiset Nat :=
  optAlloc g.name + arrAlloc g.attrsArr + listAllocs g.attrList

/-- Allocation ids owned by a list of groups. -/
def groupsAllocs : List Group → Multiset Nat
  | [] => 0
  | g :: rest => groupAllocs g + groupsAllocs rest

theorem listAllocs_append (l₁ l₂ : List CAttr) :
    listAllocs (l₁ ++ l₂) = listAllocs l₁ + listAllocs l₂ := by
  induction l₁ with
  | nil => simp [listAllocs]
  | cons a rest ih => simp [listAllocs, ih, Multiset.cons_add]

theorem kfree_live (p : Nat) (σ : Mem) : (kfree p σ).live = σ.live - {p} := by
  simp [kfree, Multiset.sub_singleton]

theorem kfreeOpt_live (p : Option (Nat × String)) (σ : Mem) :
    (kfreeOpt (p.map Prod.fst) σ).live = σ.live - optAlloc p := by
  cases p with
  | none => simp [kfreeOpt, optAlloc]
  | some q => simp [kfreeOpt, kfree_live, optAlloc]

theorem kfreeOptArr_live (p : Option (Nat × List CAttr)) (σ : Mem) :
    (kfreeOpt (p.map Prod.fst) σ).live = σ.live - arrAlloc p := by
  cases p with
  | none => simp [kfreeOpt, arrAlloc]
  | some q => simp [kfreeOpt, kfree_live, arrAlloc]

theorem free_attr_list_live :
    ∀ (l : List CAttr) (σ : Mem),
      (free_counter_device_attr_list l σ).live = σ.live - listAllocs l := by
  intro l
  induction l with
  | nil => intro σ; simp [free_counter_device_attr_list, listAllocs]
  | cons a rest ih =>
    intro σ
    rw [free_counter_device_attr_list, ih, kfree_live, kfree_live, kfree_live]
    rw [listAllocs, tsub_tsub, tsub_tsub, tsub_tsub]
    congr 1

/-- Cancellation helpers for the truncated multiset subtraction. -/
theorem msub_cancel_left (a s t : Multiset Nat) :
    (a + s) - (a + t) = s - t := by
  rw [← tsub_tsub, add_tsub_cancel_left]

theorem msub_middle (s t : Multiset Nat) (p : Nat) :
    (s + (p ::ₘ t)) - {p} = s + t := by
  rw [show p ::ₘ t = {p} + t from (Multiset.singleton_add p t).symm,
    add_left_comm s {p} t, add_tsub_cancel_left]

theorem cons_sub_singleton (p : Nat) (t : Multiset Nat) :
    (p ::ₘ t) - {p} = t := by
  rw [Multiset.sub_singleton, Multiset.erase_cons_head]

theorem kmalloc_spec (σ : Mem) :
    ((kmalloc σ).1 = none → (kmalloc σ).2.live = σ.live) ∧
    (∀ p, (kmalloc σ).1 = some p → (kmalloc σ).2.live = p ::ₘ σ.live) ∧
    HFrame σ (kmalloc σ).2 := by
  by_cases h : σ.oracle σ.tick <;> simp [kmalloc, h, HFrame]

/-- The builder functions leave the group's name and pointer-array fields
alone and only prepend to its attribute list. -/
def GrowsBy (g g' : Group) (new : List CAttr) : Prop :=
  g'.name = g.name ∧ g'.attrsArr = g.attrsArr ∧ g'.attrList = new ++ g.attrList

theorem growsBy_trans {g g' g'' : Group} {n₁ n₂ : List CAttr}
    (h : GrowsBy g g' n₁) (h' : GrowsBy g' g'' n₂) :
    GrowsBy g g'' (n₂ ++ n₁) :=
  ⟨h'.1.trans h.1, h'.2.1.trans h.2.1, by rw [h'.2.2, h.2.2, List.append_assoc]⟩

/-- Specification of `counter_name_attribute_create`: on success zero or
one attribute is added (and only its allocations); a failure restores the
heap and leaves the group untouched. -/
theorem counter_name_attribute_create_spec (g : Group) (nm : Option String)
    (σ : Mem) :
    ((counter_name_attribute_create g nm σ).1 = 0 →
      ∃ new, GrowsBy g (counter_name_attribute_create g nm σ).2.1 new ∧
        (counter_name_attribute_create g nm σ).2.2.live =
          listAllocs new + σ.live) ∧
    ((counter_name_attribute_create g nm σ).1 ≠ 0 →
      (counter_name_attribute_create g nm σ).2.1 = g ∧
      (counter_name_attribute_create g nm σ).2.2.live = σ.live) ∧
    HFrame σ (counter_name_attribute_create g nm σ).2.2 := by
  cases nm with
  | none =>
    refine ⟨fun _ => ⟨[], ⟨rfl, rfl, rfl⟩, ?_⟩, fun h => absurd rfl h, hframe_refl σ⟩
    simp [counter_name_attribute_create, listAllocs]
  | some s =>
    have hk := kmalloc_spec σ
    rw [counter_name_attribute_create]
    rcases hkm : kmalloc σ with ⟨_ | compId, σ₁⟩
    · rw [hkm] at hk
      refine ⟨fun h => absurd h (by norm_num [ENOMEM]), fun _ => ⟨rfl, ?_⟩,
        hk.2.2⟩
      exact hk.1 rfl
    · rw [hkm] at hk
      have h1 : σ₁.live = compId ::ₘ σ.live := hk.2.1 compId rfl
      have hc := counter_attribute_create_spec g "" "name" (some .nameShow)
        none (compId, .nameC s) σ₁
      rcases hcc : counter_attribute_create g "" "name" (some .nameShow)
        none (compId, .nameC s) σ₁ with ⟨e, g', σ₂⟩
      rw [hcc] at hc
      dsimp only at hc
      rcases eq_or_ne e 0 with rfl | h0
      · obtain ⟨a, hg, -, -, -, hcomp, -, hlive⟩ := hc.1 rfl
        dsimp only
        rw [hcc]
        dsimp only
        rw [if_pos rfl]
        refine ⟨fun _ => ⟨[a], ?_, ?_⟩, fun h => absurd rfl h,
          hframe_trans hk.2.2 hc.2.2⟩
        · rw [hg]
          exact ⟨rfl, rfl, rfl⟩
        · rw [hlive, h1, listAllocs, listAllocs, hcomp]
          simp only [← Multiset.singleton_add]
          abel
      · obtain ⟨hg, hlive⟩ := hc.2.1 h0
        dsimp only
        rw [hcc]
        dsimp only
        rw [if_neg h0]
        refine ⟨fun h => absurd h h0, fun _ => ⟨hg, ?_⟩,
          hframe_trans hk.2.2 (hframe_trans hc.2.2 (hframe_kfree compId σ₂))⟩
        rw [kfree_live, hlive, h1, cons_sub_singleton]

theorem listAllocs_nil : listAllocs [] = 0 := rfl

theorem listAllocs_cons (a : CAttr) (l : List CAttr) :
    listAllocs (a :: l) = listAllocs [a] + listAllocs l := by
  simp only [listAllocs, ← Multiset.singleton_add]
  abel

/-- Specification of `counter_size_attribute_create` (same shape as the
name attribute). -/
theorem counter_size_attribute_create_spec (g : Group) (size : Nat)
    (nm : String) (σ : Mem) :
    ((counter_size_attribute_create g size nm σ).1 = 0 →
      ∃ new, GrowsBy g (counter_size_attribute_create g size nm σ).2.1 new ∧
        (counter_size_attribute_create g size nm σ).2.2.live =
          listAllocs new + σ.live) ∧
    ((counter_size_attribute_create g size nm σ).1 ≠ 0 →
      (counter_size_attribute_create g size nm σ).2.1 = g ∧
      (counter_size_attribute_create g size nm σ).2.2.live = σ.live) ∧
    HFrame σ (counter_size_attribute_create g size nm σ).2.2 := by
  have hk := kmalloc_spec σ
  rw [counter_size_attribute_create]
  rcases hkm : kmalloc σ with ⟨_ | compId, σ₁⟩
  · rw [hkm] at hk
    refine ⟨fun h => absurd h (by norm_num [ENOMEM]), fun _ => ⟨rfl, ?_⟩,
      hk.2.2⟩
    exact hk.1 rfl
  · rw [hkm] at hk
    have h1 : σ₁.live = compId ::ₘ σ.live := hk.2.1 compId rfl
    have hc := counter_attribute_create_spec g "" nm (some .sizeShow)
      none (compId, .size size) σ₁
    rcases hcc : counter_attribute_create g "" nm (some .sizeShow)
      none (compId, .size size) σ₁ with ⟨e, g', σ₂⟩
    rw [hcc] at hc
    dsimp only at hc
    rcases eq_or_ne e 0 with rfl | h0
    · obtain ⟨a, hg, -, -, -, hcomp, -, hlive⟩ := hc.1 rfl
      dsimp only
      rw [hcc]
      dsimp only
      rw [if_pos rfl]
      refine ⟨fun _ => ⟨[a], ?_, ?_⟩, fun h => absurd rfl h,
        hframe_trans hk.2.2 hc.2.2⟩
      · rw [hg]
        exact ⟨rfl, rfl, rfl⟩
      · rw [hlive, h1, listAllocs, listAllocs, hcomp]
        simp only [← Multiset.singleton_add]
        abel
    · obtain ⟨hg, hlive⟩ := hc.2.1 h0
      dsimp only
      rw [hcc]
      dsimp only
      rw [if_neg h0]
      refine ⟨fun h => absurd h h0, fun _ => ⟨hg, ?_⟩,
        hframe_trans hk.2.2 (hframe_trans hc.2.2 (hframe_kfree compId σ₂))⟩
      rw [kfree_live, hlive, h1, cons_sub_singleton]

/-- Specification of `counter_signal_ext_register`: on success it adds
one attribute per extension (and only their allocations); on failure it
has released the pending allocations and the whole attribute list of the
group. -/
theorem counter_signal_ext_register_spec (s : counter_signal) :
    ∀ (exts : List SigExt) (g : Group) (σ : Mem),
      ((counter_signal_ext_register s g exts σ).1 = 0 →
        ∃ new, GrowsBy g (counter_signal_ext_register s g exts σ).2.1 new ∧
          (counter_signal_ext_register s g exts σ).2.2.live =
            listAllocs new + σ.live) ∧
      ((counter_signal_ext_register s g exts σ).1 ≠ 0 →
        (counter_signal_ext_register s g exts σ).2.1.name = g.name ∧
        (counter_signal_ext_register s g exts σ).2.1.attrsArr = g.attrsArr ∧
        (counter_signal_ext_register s g exts σ).2.1.attrList = [] ∧
        (counter_signal_ext_register s g exts σ).2.2.live =
          σ.live - listAllocs g.attrList) ∧
      HFrame σ (counter_signal_ext_register s g exts σ).2.2 := by
  intro exts
  induction exts with
  | nil =>
    intro g σ
    refine ⟨fun _ => ⟨[], ⟨rfl, rfl, rfl⟩, ?_⟩, fun h => absurd rfl h,
      hframe_refl σ⟩
    simp [counter_signal_ext_register, listAllocs]
  | cons x rest ih =>
    intro g σ
    rw [counter_signal_ext_register]
    have hk := kmalloc_spec σ
    rcases hkm : kmalloc σ with ⟨_ | compId, σ₁⟩
    · rw [hkm] at hk
      refine ⟨fun h => absurd h (by norm_num [ENOMEM]),
        fun _ => ⟨rfl, rfl, rfl, ?_⟩,
        hframe_trans hk.2.2 (hframe_free_attr_list g.attrList σ₁)⟩
      rw [free_attr_list_live, hk.1 rfl]
    · rw [hkm] at hk
      have h1 : σ₁.live = compId ::ₘ σ.live := hk.2.1 compId rfl
      have hc := counter_attribute_create_spec g "" x.name
        (if x.read then some .signalExtShow else none)
        (if x.write then some .signalExtStore else none)
        (compId, .signalExt s x) σ₁
      rcases hcc : counter_attribute_create g "" x.name
        (if x.read then some .signalExtShow else none)
        (if x.write then some .signalExtStore else none)
        (compId, .signalExt s x) σ₁ with ⟨e, g', σ₂⟩
      rw [hcc] at hc
      dsimp only at hc
      rcases eq_or_ne e 0 with rfl | h0
      · obtain ⟨a, hg, -, -, -, hcomp, -, hlive⟩ := hc.1 rfl
        dsimp only
        rw [hcc]
        dsimp only
        rw [if_pos rfl]
        have hrec := ih g' σ₂
        refine ⟨?_, ?_, hframe_trans hk.2.2 (hframe_trans hc.2.2 hrec.2.2)⟩
        · intro hz
          obtain ⟨new, hgrow, hl⟩ := hrec.1 hz
          refine ⟨new ++ [a], growsBy_trans ?_ hgrow, ?_⟩
          · rw [hg]; exact ⟨rfl, rfl, rfl⟩
          · rw [hl, hlive, h1, listAllocs_append, ← hcomp]
            simp only [listAllocs, ← Multiset.singleton_add]
            abel
        · intro hz
          obtain ⟨hn, ha, hl, hlv⟩ := hrec.2.1 hz
          have hgn : g'.name = g.name := by rw [hg]
          have hga : g'.attrsArr = g.attrsArr := by rw [hg]
          refine ⟨hn.trans hgn, ha.trans hga, hl, ?_⟩
          rw [hlv, hlive, h1, hg]
          dsimp only
          rw [listAllocs_cons, ← hcomp]
          have hx : a.nameId ::ₘ a.self ::ₘ a.comp ::ₘ σ.live =
              listAllocs [a] + σ.live := by
            simp only [listAllocs, ← Multiset.singleton_add]
            abel
          rw [hx, msub_cancel_left]
      · obtain ⟨hg, hlive⟩ := hc.2.1 h0
        dsimp only
        rw [hcc]
        dsimp only
        rw [if_neg h0]
        refine ⟨fun h => absurd h h0, fun _ => ⟨by rw [hg], by rw [hg], rfl, ?_⟩,
          hframe_trans hk.2.2 (hframe_trans hc.2.2 (hframe_trans
            (hframe_kfree compId σ₂)
            (hframe_free_attr_list g'.attrList (kfree compId σ₂))))⟩
        rw [free_attr_list_live, kfree_live, hlive, h1, cons_sub_singleton, hg]

/-- Specification of `counter_count_ext_register`: on success it adds
one attribute per extension (and only their allocations); on failure it
has released the pending allocations and the whole attribute list of the
group. -/
theorem counter_count_ext_register_spec (c : counter_count) :
    ∀ (exts : List CountExt) (g : Group) (σ : Mem),
      ((counter_count_ext_register c g exts σ).1 = 0 →
        ∃ new, GrowsBy g (counter_count_ext_register c g exts σ).2.1 new ∧
          (counter_count_ext_register c g exts σ).2.2.live =
            listAllocs new + σ.live) ∧
      ((counter_count_ext_register c g exts σ).1 ≠ 0 →
        (counter_count_ext_register c g exts σ).2.1.name = g.name ∧
        (counter_count_ext_register c g exts σ).2.1.attrsArr = g.attrsArr ∧
        (counter_count_ext_register c g exts σ).2.1.attrList = [] ∧
        (counter_count_ext_register c g exts σ).2.2.live =
          σ.live - listAllocs g.attrList) ∧
      HFrame σ (counter_count_ext_register c g exts σ).2.2 := by
  intro exts
  induction exts with
  | nil =>
    intro g σ
    refine ⟨fun _ => ⟨[], ⟨rfl, rfl, rfl⟩, ?_⟩, fun h => absurd rfl h,
      hframe_refl σ⟩
    simp [counter_count_ext_register, listAllocs]
  | cons x rest ih =>
    intro g σ
    rw [counter_count_ext_register]
    have hk := kmalloc_spec σ
    rcases hkm : kmalloc σ with ⟨_ | compId, σ₁⟩
    · rw [hkm] at hk
      refine ⟨fun h => absurd h (by norm_num [ENOMEM]),
        fun _ => ⟨rfl, rfl, rfl, ?_⟩,
        hframe_trans hk.2.2 (hframe_free_attr_list g.attrList σ₁)⟩
      rw [free_attr_list_live, hk.1 rfl]
    · rw [hkm] at hk
      have h1 : σ₁.live = compId ::ₘ σ.live := hk.2.1 compId rfl
      have hc := counter_attribute_create_spec g "" x.name
        (if x.read then some .countExtShow else none)
        (if x.write then some .countExtStore else none)
        (compId, .countExt c x) σ₁
      rcases hcc : counter_attribute_create g "" x.name
        (if x.read then some .countExtShow else none)
        (if x.write then some .countExtStore else none)
        (compId, .countExt c x) σ₁ with ⟨e, g', σ₂⟩
      rw [hcc] at hc
      dsimp only at hc
      rcases eq_or_ne e 0 with rfl | h0
      · obtain ⟨a, hg, -, -, -, hcomp, -, hlive⟩ := hc.1 rfl
        dsimp only
        rw [hcc]
        dsimp only
        rw [if_pos rfl]
        have hrec := ih g' σ₂
        refine ⟨?_, ?_, hframe_trans hk.2.2 (hframe_trans hc.2.2 hrec.2.2)⟩
        · intro hz
          obtain ⟨new, hgrow, hl⟩ := hrec.1 hz
          refine ⟨new ++ [a], growsBy_trans ?_ hgrow, ?_⟩
          · rw [hg]; exact ⟨rfl, rfl, rfl⟩
          · rw [hl, hlive, h1, listAllocs_append, ← hcomp]
            simp only [listAllocs, ← Multiset.singleton_add]
            abel
        · intro hz
          obtain ⟨hn, ha, hl, hlv⟩ := hrec.2.1 hz
          have hgn : g'.name = g.name := by rw [hg]
          have hga : g'.attrsArr = g.attrsArr := by rw [hg]
          refine ⟨hn.trans hgn, ha.trans hga, hl, ?_⟩
          rw [hlv, hlive, h1, hg]
          dsimp only
          rw [listAllocs_cons, ← hcomp]
          have hx : a.nameId ::ₘ a.self ::ₘ a.comp ::ₘ σ.live =
              listAllocs [a] + σ.live := by
            simp only [listAllocs, ← Multiset.singleton_add]
            abel
          rw [hx, msub_cancel_left]
      · obtain ⟨hg, hlive⟩ := hc.2.1 h0
        dsimp only
        rw [hcc]
        dsimp only
        rw [if_neg h0]
        refine ⟨fun h => absurd h h0, fun _ => ⟨by rw [hg], by rw [hg], rfl, ?_⟩,
          hframe_trans hk.2.2 (hframe_trans hc.2.2 (hframe_trans
            (hframe_kfree compId σ₂)
            (hframe_free_attr_list g'.attrList (kfree compId σ₂))))⟩
        rw [free_attr_list_live, kfree_live, hlive, h1, cons_sub_singleton, hg]

/-- Specification of `counter_device_ext_register` (same shape as the
other extension loops). -/
theorem counter_device_ext_register_spec :
    ∀ (exts : List DevExt) (g : Group) (σ : Mem),
      ((counter_device_ext_register g exts σ).1 = 0 →
        ∃ new, GrowsBy g (counter_device_ext_register g exts σ).2.1 new ∧
          (counter_device_ext_register g exts σ).2.2.live =
            listAllocs new + σ.live) ∧
      ((counter_device_ext_register g exts σ).1 ≠ 0 →
        (counter_device_ext_register g exts σ).2.1.name = g.name ∧
        (counter_device_ext_register g exts σ).2.1.attrsArr = g.attrsArr ∧
        (counter_device_ext_register g exts σ).2.1.attrList = [] ∧
        (counter_device_ext_register g exts σ).2.2.live =
          σ.live - listAllocs g.attrList) ∧
      HFrame σ (counter_device_ext_register g exts σ).2.2 := by
  intro exts
  induction exts with
  | nil =>
    intro g σ
    refine ⟨fun _ => ⟨[], ⟨rfl, rfl, rfl⟩, ?_⟩, fun h => absurd rfl h,
      hframe_refl σ⟩
    simp [counter_device_ext_register, listAllocs]
  | cons x rest ih =>
    intro g σ
    rw [counter_device_ext_register]
    have hk := kmalloc_spec σ
    rcases hkm : kmalloc σ with ⟨_ | compId, σ₁⟩
    · rw [hkm] at hk
      refine ⟨fun h => absurd h (by norm_num [ENOMEM]),
        fun _ => ⟨rfl, rfl, rfl, ?_⟩,
        hframe_trans hk.2.2 (hframe_free_attr_list g.attrList σ₁)⟩
      rw [free_attr_list_live, hk.1 rfl]
    · rw [hkm] at hk
      have h1 : σ₁.live = compId ::ₘ σ.live := hk.2.1 compId rfl
      have hc := counter_attribute_create_spec g "" x.name
        (if x.read then some .deviceExtShow else none)
        (if x.write then some .deviceExtStore else none)
        (compId, .devExt x) σ₁
      rcases hcc : counter_attribute_create g "" x.name
        (if x.read then some .deviceExtShow else none)
        (if x.write then some .deviceExtStore else none)
        (compId, .devExt x) σ₁ with ⟨e, g', σ₂⟩
      rw [hcc] at hc
      dsimp only at hc
      rcases eq_or_ne e 0 with rfl | h0
      · obtain ⟨a, hg, -, -, -, hcomp, -, hlive⟩ := hc.1 rfl
        dsimp only
        rw [hcc]
        dsimp only
        rw [if_pos rfl]
        have hrec := ih g' σ₂
        refine ⟨?_, ?_, hframe_trans hk.2.2 (hframe_trans hc.2.2 hrec.2.2)⟩
        · intro hz
          obtain ⟨new, hgrow, hl⟩ := hrec.1 hz
          refine ⟨new ++ [a], growsBy_trans ?_ hgrow, ?_⟩
          · rw [hg]; exact ⟨rfl, rfl, rfl⟩
          · rw [hl, hlive, h1, listAllocs_append, ← hcomp]
            simp only [listAllocs, ← Multiset.singleton_add]
            abel
        · intro hz
          obtain ⟨hn, ha, hl, hlv⟩ := hrec.2.1 hz
          have hgn : g'.name = g.name := by rw [hg]
          have hga : g'.attrsArr = g.attrsArr := by rw [hg]
          refine ⟨hn.trans hgn, ha.trans hga, hl, ?_⟩
          rw [hlv, hlive, h1, hg]
          dsimp only
          rw [listAllocs_cons, ← hcomp]
          have hx : a.nameId ::ₘ a.self ::ₘ a.comp ::ₘ σ.live =
              listAllocs [a] + σ.live := by
            simp only [listAllocs, ← Multiset.singleton_add]
            abel
          rw [hx, msub_cancel_left]
      · obtain ⟨hg, hlive⟩ := hc.2.1 h0
        dsimp only
        rw [hcc]
        dsimp only
        rw [if_neg h0]
        refine ⟨fun h => absurd h h0, fun _ => ⟨by rw [hg], by rw [hg], rfl, ?_⟩,
          hframe_trans hk.2.2 (hframe_trans hc.2.2 (hframe_trans
            (hframe_kfree compId σ₂)
            (hframe_free_attr_list g'.attrList (kfree compId σ₂))))⟩
        rw [free_attr_list_live, kfree_live, hlive, h1, cons_sub_singleton, hg]

/-- Specification of `counter_signal_attributes_create`: on success
exactly the new attributes' allocations are added; on failure the heap
has lost exactly what the returned group no longer owns (a failure either
leaves the group untouched or has released its whole attribute list). -/
theorem counter_signal_attributes_create_spec (g : Group) (ops : OpsPresence)
    (s : counter_signal) (σ : Mem) :
    ((counter_signal_attributes_create g ops s σ).1 = 0 →
      ∃ new, GrowsBy g (counter_signal_attributes_create g ops s σ).2.1 new ∧
        (counter_signal_attributes_create g ops s σ).2.2.live =
          listAllocs new + σ.live) ∧
    ((counter_signal_attributes_create g ops s σ).1 ≠ 0 →
      (counter_signal_attributes_create g ops s σ).2.1.name = g.name ∧
      (counter_signal_attributes_create g ops s σ).2.1.attrsArr = g.attrsArr ∧
      (counter_signal_attributes_create g ops s σ).2.2.live -
          listAllocs (counter_signal_attributes_create g ops s σ).2.1.attrList =
        σ.live - listAllocs g.attrList) ∧
    HFrame σ (counter_signal_attributes_create g ops s σ).2.2 := by
  rw [counter_signal_attributes_create]
  have hk := kmalloc_spec σ
  rcases hkm : kmalloc σ with ⟨_ | compId, σ₁⟩
  · rw [hkm] at hk
    refine ⟨fun h => absurd h (by norm_num [ENOMEM]),
      fun _ => ⟨rfl, rfl, ?_⟩, hk.2.2⟩
    rw [hk.1 rfl]
  · rw [hkm] at hk
    have h1 : σ₁.live = compId ::ₘ σ.live := hk.2.1 compId rfl
    have hc := counter_attribute_create_spec g "" "signal"
      (if ops.signal_read then some .signalShow else none) none
      (compId, .signal s) σ₁
    rcases hcc : counter_attribute_create g "" "signal"
      (if ops.signal_read then some .signalShow else none) none
      (compId, .signal s) σ₁ with ⟨e₁, g₁, σ₂⟩
    rw [hcc] at hc
    dsimp only at hc
    rcases eq_or_ne e₁ 0 with rfl | h0
    · obtain ⟨a, hg, -, -, -, hcomp, -, hlive⟩ := hc.1 rfl
      dsimp only
      rw [hcc]
      dsimp only
      rw [if_pos rfl]
      have h2 : σ₂.live = listAllocs [a] + σ.live := by
        rw [hlive, h1, ← hcomp]
        simp only [listAllocs, ← Multiset.singleton_add]
        abel
      have hn := counter_name_attribute_create_spec g₁ s.name σ₂
      rcases hnn : counter_name_attribute_create g₁ s.name σ₂
        with ⟨e₂, g₂, σ₃⟩
      rw [hnn] at hn
      dsimp only at hn
      rcases eq_or_ne e₂ 0 with rfl | h2n
      · obtain ⟨new₂, hgrow₂, hl₂⟩ := hn.1 rfl
        rw [if_pos rfl]
        have hx := counter_signal_ext_register_spec s s.ext g₂ σ₃
        rcases hxx : counter_signal_ext_register s g₂ s.ext σ₃
          with ⟨e₃, g₃, σ₄⟩
        rw [hxx] at hx
        dsimp only at hx
        have hg₂list : g₂.attrList = new₂ ++ (a :: g.attrList) := by
          rw [hgrow₂.2.2, hg]
        have hg₂name : g₂.name = g.name := by
          rw [hgrow₂.1, hg]
        have hg₂arr : g₂.attrsArr = g.attrsArr := by
          rw [hgrow₂.2.1, hg]
        have h3 : σ₃.live = (listAllocs new₂ + listAllocs [a]) + σ.live := by
          rw [hl₂, h2]
          abel
        rcases eq_or_ne e₃ 0 with rfl | h3n
        · obtain ⟨new₃, hgrow₃, hl₃⟩ := hx.1 rfl
          rw [if_pos rfl]
          refine ⟨fun _ => ⟨new₃ ++ new₂ ++ [a], ?_, ?_⟩,
            fun h => absurd rfl h,
            hframe_trans hk.2.2 (hframe_trans hc.2.2
              (hframe_trans hn.2.2 hx.2.2))⟩
          · constructor
            · rw [hgrow₃.1, hg₂name]
            · constructor
              · rw [hgrow₃.2.1, hg₂arr]
              · rw [hgrow₃.2.2, hg₂list]
                simp [List.append_assoc]
          · rw [hl₃, h3, listAllocs_append, listAllocs_append]
            abel
        · obtain ⟨hn₃, ha₃, hl₃, hlv₃⟩ := hx.2.1 h3n
          rw [if_neg h3n]
          dsimp only
          refine ⟨fun h => absurd h h3n,
            fun _ => ⟨hn₃.trans hg₂name, ha₃.trans hg₂arr, ?_⟩,
            hframe_trans hk.2.2 (hframe_trans hc.2.2 (hframe_trans hn.2.2
              (hframe_trans hx.2.2
                (hframe_free_attr_list g₃.attrList σ₄))))⟩
          rw [free_attr_list_live, hlv₃, h3, hg₂list, hl₃,
            listAllocs_append, listAllocs_cons a g.attrList]
          ext n
          simp only [listAllocs_nil, Multiset.count_sub, Multiset.count_add,
            Multiset.count_zero]
          omega
      · obtain ⟨hgn, hlvn⟩ := hn.2.1 h2n
        rw [if_neg h2n]
        dsimp only
        refine ⟨fun h => absurd h h2n,
          fun _ => ⟨?_, ?_, ?_⟩,
          hframe_trans hk.2.2 (hframe_trans hc.2.2 (hframe_trans hn.2.2
            (hframe_free_attr_list g₂.attrList σ₃)))⟩
        · rw [hgn, hg]
        · rw [hgn, hg]
        · rw [free_attr_list_live, hlvn, h2, hgn, hg]
          dsimp only
          rw [listAllocs_cons a g.attrList]
          ext n
          simp only [listAllocs_nil, Multiset.count_sub, Multiset.count_add,
            Multiset.count_zero]
          omega
    · obtain ⟨hg, hlive⟩ := hc.2.1 h0
      dsimp only
      rw [hcc]
      dsimp only
      rw [if_neg h0]
      refine ⟨fun h => absurd h h0, fun _ => ⟨by rw [hg], by rw [hg], ?_⟩,
        hframe_trans hk.2.2 (hframe_trans hc.2.2 (hframe_kfree compId σ₂))⟩
      rw [kfree_live, hlive, h1, cons_sub_singleton, hg]

theorem optAlloc_none : optAlloc none = 0 := rfl

theorem arrAlloc_none : arrAlloc none = 0 := rfl

theorem free_one_group_live (g : Group) (σ : Mem) :
    (free_one_group g σ).live = σ.live - groupAllocs g := by
  rw [free_one_group, free_attr_list_live, kfreeOptArr_live, kfreeOpt_live,
    groupAllocs, tsub_tsub, tsub_tsub, add_assoc]

theorem hframe_free_one_group (g : Group) (σ : Mem) :
    HFrame σ (free_one_group g σ) :=
  hframe_trans (hframe_kfreeOpt _ σ)
    (hframe_trans (hframe_kfreeOpt _ _) (hframe_free_attr_list g.attrList _))

theorem free_groups_aux_live :
    ∀ (l : List Group) (σ : Mem),
      (free_groups_aux l σ).live = σ.live - groupsAllocs l := by
  intro l
  induction l with
  | nil => intro σ; simp [free_groups_aux, groupsAllocs]
  | cons g rest ih =>
    intro σ
    rw [free_groups_aux, ih, free_one_group_live, groupsAllocs, tsub_tsub]

theorem hframe_free_groups_aux :
    ∀ (l : List Group) (σ : Mem), HFrame σ (free_groups_aux l σ)
  | [], σ => hframe_refl σ
  | g :: rest, σ =>
    hframe_trans (hframe_free_one_group g σ)
      (hframe_free_groups_aux rest (free_one_group g σ))

theorem groupsAllocs_empty :
    ∀ {l : List Group}, (∀ g ∈ l, g = emptyGroup) → groupsAllocs l = 0 := by
  intro l
  induction l with
  | nil => intro _; rfl
  | cons g rest ih =>
    intro h
    rw [groupsAllocs, h g (by simp), ih (fun g' hg' => h g' (by simp [hg']))]
    rfl

/-- Specification of `counter_synapses_register`: on success it adds two
attributes per Synapse (action and action_available) and only their
allocations (the temporary prefix strings are all released); any failure
releases everything pending and the group's whole attribute list. -/
theorem counter_synapses_register_spec (ops : OpsPresence) (c : counter_count) :
    ∀ (syns : List counter_synapse) (g : Group) (σ : Mem),
      ((counter_synapses_register ops c g syns σ).1 = 0 →
        ∃ new, GrowsBy g (counter_synapses_register ops c g syns σ).2.1 new ∧
          (counter_synapses_register ops c g syns σ).2.2.live =
            listAllocs new + σ.live) ∧
      ((counter_synapses_register ops c g syns σ).1 ≠ 0 →
        (counter_synapses_register ops c g syns σ).2.1.name = g.name ∧
        (counter_synapses_register ops c g syns σ).2.1.attrsArr = g.attrsArr ∧
        (counter_synapses_register ops c g syns σ).2.1.attrList = [] ∧
        (counter_synapses_register ops c g syns σ).2.2.live =
          σ.live - listAllocs g.attrList) ∧
      HFrame σ (counter_synapses_register ops c g syns σ).2.2 := by
  intro syns
  induction syns with
  | nil =>
    intro g σ
    refine ⟨fun _ => ⟨[], ⟨rfl, rfl, rfl⟩, ?_⟩, fun h => absurd rfl h,
      hframe_refl σ⟩
    simp [counter_synapses_register, listAllocs]
  | cons syn rest ih =>
    intro g σ
    rw [counter_synapses_register]
    have hk := kmalloc_spec σ
    rcases hkm : kmalloc σ with ⟨_ | pfxId, σ₁⟩
    · rw [hkm] at hk
      refine ⟨fun h => absurd h (by norm_num [ENOMEM]),
        fun _ => ⟨rfl, rfl, rfl, ?_⟩,
        hframe_trans hk.2.2 (hframe_free_attr_list g.attrList σ₁)⟩
      rw [free_attr_list_live, hk.1 rfl]
    · rw [hkm] at hk
      dsimp only
      have h1 : σ₁.live = pfxId ::ₘ σ.live := hk.2.1 pfxId rfl
      have hk2 := kmalloc_spec σ₁
      rcases hkm2 : kmalloc σ₁ with ⟨_ | acId, σ₂⟩
      · rw [hkm2] at hk2
        refine ⟨fun h => absurd h (by norm_num [ENOMEM]),
          fun _ => ⟨rfl, rfl, rfl, ?_⟩,
          hframe_trans hk.2.2 (hframe_trans hk2.2.2 (hframe_trans
            (hframe_kfree pfxId σ₂)
            (hframe_free_attr_list g.attrList (kfree pfxId σ₂))))⟩
        rw [free_attr_list_live, kfree_live, hk2.1 rfl, h1, cons_sub_singleton]
      · rw [hkm2] at hk2
        have h2 : σ₂.live = acId ::ₘ pfxId ::ₘ σ.live := by
          rw [hk2.2.1 acId rfl, h1]
        have hc := counter_attribute_create_spec g
          ("signal" ++ toString syn.signal.id ++ "_") "action"
          (if ops.action_get then some .actionShow else none)
          (if ops.action_set then some .actionStore else none)
          (acId, .action syn c) σ₂
        rcases hcc : counter_attribute_create g
          ("signal" ++ toString syn.signal.id ++ "_") "action"
          (if ops.action_get then some .actionShow else none)
          (if ops.action_set then some .actionStore else none)
          (acId, .action syn c) σ₂ with ⟨e₁, g₁, σ₃⟩
        rw [hcc] at hc
        dsimp only at hc
        rcases eq_or_ne e₁ 0 with rfl | h0
        · obtain ⟨a₁, hg₁, -, -, -, hcomp₁, -, hlive₁⟩ := hc.1 rfl
          dsimp only
          rw [hcc]
          dsimp only
          rw [if_pos rfl]
          have h3 : σ₃.live = listAllocs [a₁] + (pfxId ::ₘ σ.live) := by
            rw [hlive₁, h2, ← hcomp₁]
            simp only [listAllocs, ← Multiset.singleton_add]
            abel
          have hk3 := kmalloc_spec σ₃
          rcases hkm3 : kmalloc σ₃ with ⟨_ | avId, σ₄⟩
          · rw [hkm3] at hk3
            refine ⟨fun h => absurd h (by norm_num [ENOMEM]),
              fun _ => ⟨by rw [hg₁], by rw [hg₁], rfl, ?_⟩,
              hframe_trans hk.2.2 (hframe_trans hk2.2.2 (hframe_trans hc.2.2
                (hframe_trans hk3.2.2 (hframe_trans (hframe_kfree pfxId σ₄)
                  (hframe_free_attr_list g₁.attrList (kfree pfxId σ₄))))))⟩
            rw [free_attr_list_live, kfree_live, hk3.1 rfl, h3, hg₁]
            dsimp only
            rw [listAllocs_cons a₁ g.attrList]
            ext n
            simp only [Multiset.count_sub, Multiset.count_add,
              Multiset.count_cons, Multiset.count_singleton]
            split_ifs <;> omega
          · rw [hkm3] at hk3
            have h4 : σ₄.live = avId ::ₘ (listAllocs [a₁] + (pfxId ::ₘ σ.live)) := by
              rw [hk3.2.1 avId rfl, h3]
            have hc2 := counter_attribute_create_spec g₁
              ("signal" ++ toString syn.signal.id ++ "_") "action_available"
              (some .synapseActionAvailableShow) none
              (avId, .actionAvail syn.actions_list) σ₄
            rcases hcc2 : counter_attribute_create g₁
              ("signal" ++ toString syn.signal.id ++ "_") "action_available"
              (some .synapseActionAvailableShow) none
              (avId, .actionAvail syn.actions_list) σ₄ with ⟨e₂, g₂, σ₅⟩
            rw [hcc2] at hc2
            dsimp only at hc2
            rcases eq_or_ne e₂ 0 with rfl | h02
            · obtain ⟨a₂, hg₂, -, -, -, hcomp₂, -, hlive₂⟩ := hc2.1 rfl
              dsimp only
              rw [hcc2]
              dsimp only
              rw [if_pos rfl]
              have h5 : (kfree pfxId σ₅).live =
                  (listAllocs [a₂] + listAllocs [a₁]) + σ.live := by
                rw [kfree_live, hlive₂, h4, ← hcomp₂]
                ext n
                simp only [Multiset.count_sub, Multiset.count_add,
                  Multiset.count_cons, Multiset.count_singleton, listAllocs,
                  Multiset.count_zero]
                split_ifs <;> omega
              have hrec := ih g₂ (kfree pfxId σ₅)
              refine ⟨?_, ?_, hframe_trans hk.2.2 (hframe_trans hk2.2.2
                (hframe_trans hc.2.2 (hframe_trans hk3.2.2 (hframe_trans
                  hc2.2.2 (hframe_trans (hframe_kfree pfxId σ₅)
                    hrec.2.2)))))⟩
              · intro hz
                obtain ⟨newR, hgrowR, hlR⟩ := hrec.1 hz
                refine ⟨newR ++ [a₂] ++ [a₁], ?_, ?_⟩
                · constructor
                  · rw [hgrowR.1, hg₂]
                    dsimp only
                    rw [hg₁]
                  · constructor
                    · rw [hgrowR.2.1, hg₂]
                      dsimp only
                      rw [hg₁]
                    · rw [hgrowR.2.2, hg₂]
                      dsimp only
                      rw [hg₁]
                      simp [List.append_assoc]
                · rw [hlR, h5, listAllocs_append, listAllocs_append]
                  abel
              · intro hz
                obtain ⟨hnR, haR, hlR, hlvR⟩ := hrec.2.1 hz
                refine ⟨?_, ?_, hlR, ?_⟩
                · rw [hnR, hg₂]
                  dsimp only
                  rw [hg₁]
                · rw [haR, hg₂]
                  dsimp only
                  rw [hg₁]
                · rw [hlvR, h5, hg₂]
                  dsimp only
                  rw [hg₁]
                  dsimp only
                  rw [listAllocs_cons a₂ (a₁ :: g.attrList),
                    listAllocs_cons a₁ g.attrList]
                  ext n
                  simp only [Multiset.count_sub, Multiset.count_add,
                    Multiset.count_zero]
                  omega
            · obtain ⟨hg₂, hlive₂⟩ := hc2.2.1 h02
              dsimp only
              rw [hcc2]
              dsimp only
              rw [if_neg h02]
              refine ⟨fun h => absurd h h02,
                fun _ => ⟨by rw [hg₂, hg₁], by rw [hg₂, hg₁], rfl, ?_⟩,
                hframe_trans hk.2.2 (hframe_trans hk2.2.2 (hframe_trans
                  hc.2.2 (hframe_trans hk3.2.2 (hframe_trans hc2.2.2
                    (hframe_trans (hframe_kfree avId σ₅) (hframe_trans
                      (hframe_kfree pfxId (kfree avId σ₅))
                      (hframe_free_attr_list g₂.attrList
                        (kfree pfxId (kfree avId σ₅)))))))))⟩
              rw [free_attr_list_live, kfree_live, kfree_live, hlive₂, h4,
                hg₂, hg₁]
              dsimp only
              rw [listAllocs_cons a₁ g.attrList]
              ext n
              simp only [Multiset.count_sub, Multiset.count_add,
                Multiset.count_cons, Multiset.count_singleton, listAllocs,
                Multiset.count_zero]
              split_ifs <;> omega
        · obtain ⟨hg₁, hlive₁⟩ := hc.2.1 h0
          dsimp only
          rw [hcc]
          dsimp only
          rw [if_neg h0]
          refine ⟨fun h => absurd h h0,
            fun _ => ⟨by rw [hg₁], by rw [hg₁], rfl, ?_⟩,
            hframe_trans hk.2.2 (hframe_trans hk2.2.2 (hframe_trans hc.2.2
              (hframe_trans (hframe_kfree acId σ₃) (hframe_trans
                (hframe_kfree pfxId (kfree acId σ₃))
                (hframe_free_attr_list g₁.attrList
                  (kfree pfxId (kfree acId σ₃)))))))⟩
          rw [free_attr_list_live, kfree_live, kfree_live, hlive₁, h2, hg₁]
          ext n
          simp only [Multiset.count_sub, Multiset.count_add,
            Multiset.count_cons, Multiset.count_singleton,
            Multiset.count_zero]
          split_ifs <;> omega

/-- Specification of `counter_count_attributes_create`: the `count`,
`function`, `function_available`, optional `name` and extension
attributes; failure semantics as for the Signal variant. -/
theorem counter_count_attributes_create_spec (g : Group) (ops : OpsPresence)
    (c : counter_count) (σ : Mem) :
    ((counter_count_attributes_create g ops c σ).1 = 0 →
      ∃ new, GrowsBy g (counter_count_attributes_create g ops c σ).2.1 new ∧
        (counter_count_attributes_create g ops c σ).2.2.live =
          listAllocs new + σ.live) ∧
    ((counter_count_attributes_create g ops c σ).1 ≠ 0 →
      (counter_count_attributes_create g ops c σ).2.1.name = g.name ∧
      (counter_count_attributes_create g ops c σ).2.1.attrsArr = g.attrsArr ∧
      (counter_count_attributes_create g ops c σ).2.2.live -
          listAllocs (counter_count_attributes_create g ops c σ).2.1.attrList =
        σ.live - listAllocs g.attrList) ∧
    HFrame σ (counter_count_attributes_create g ops c σ).2.2 := by
  rw [counter_count_attributes_create]
  have hk := kmalloc_spec σ
  rcases hkm : kmalloc σ with ⟨_ | ccId, σ₁⟩
  · rw [hkm] at hk
    refine ⟨fun h => absurd h (by norm_num [ENOMEM]),
      fun _ => ⟨rfl, rfl, ?_⟩, hk.2.2⟩
    rw [hk.1 rfl]
  · rw [hkm] at hk
    dsimp only
    have h1 : σ₁.live = ccId ::ₘ σ.live := hk.2.1 ccId rfl
    have hc := counter_attribute_create_spec g "" "count"
      (if ops.count_read then some .countShow else none)
      (if ops.count_write then some .countStore else none)
      (ccId, .countC c) σ₁
    rcases hcc : counter_attribute_create g "" "count"
      (if ops.count_read then some .countShow else none)
      (if ops.count_write then some .countStore else none)
      (ccId, .countC c) σ₁ with ⟨e₁, g₁, σ₂⟩
    rw [hcc] at hc
    dsimp only at hc
    rcases eq_or_ne e₁ 0 with rfl | h0
    · obtain ⟨a₁, hg₁, -, -, -, hcomp₁, -, hlive₁⟩ := hc.1 rfl
      dsimp only
      rw [if_pos rfl]
      have h2 : σ₂.live = listAllocs [a₁] + σ.live := by
        rw [hlive₁, h1, ← hcomp₁]
        simp only [listAllocs, ← Multiset.singleton_add]
        abel
      have hg₁l : g₁.attrList = a₁ :: g.attrList := by rw [hg₁]
      have hg₁n : g₁.name = g.name := by rw [hg₁]
      have hg₁a : g₁.attrsArr = g.attrsArr := by rw [hg₁]
      have hk2 := kmalloc_spec σ₂
      rcases hkm2 : kmalloc σ₂ with ⟨_ | fcId, σ₃⟩
      · rw [hkm2] at hk2
        refine ⟨fun h => absurd h (by norm_num [ENOMEM]),
          fun _ => ⟨hg₁n, hg₁a, ?_⟩,
          hframe_trans hk.2.2 (hframe_trans hc.2.2 (hframe_trans hk2.2.2
            (hframe_free_attr_list g₁.attrList σ₃)))⟩
        rw [free_attr_list_live, hk2.1 rfl, h2, hg₁l,
          listAllocs_cons a₁ g.attrList]
        ext n
        simp only [listAllocs_nil, Multiset.count_sub, Multiset.count_add,
          Multiset.count_zero]
        omega
      · rw [hkm2] at hk2
        dsimp only
        have h3 : σ₃.live = fcId ::ₘ (listAllocs [a₁] + σ.live) := by
          rw [hk2.2.1 fcId rfl, h2]
        have hc2 := counter_attribute_create_spec g₁ "" "function"
          (if ops.function_get then some .functionShow else none)
          (if ops.function_set then some .functionStore else none)
          (fcId, .countC c) σ₃
        rcases hcc2 : counter_attribute_create g₁ "" "function"
          (if ops.function_get then some .functionShow else none)
          (if ops.function_set then some .functionStore else none)
          (fcId, .countC c) σ₃ with ⟨e₂, g₂, σ₄⟩
        rw [hcc2] at hc2
        dsimp only at hc2
        rcases eq_or_ne e₂ 0 with rfl | h02
        · obtain ⟨a₂, hg₂, -, -, -, hcomp₂, -, hlive₂⟩ := hc2.1 rfl
          dsimp only
          rw [if_pos rfl]
          have h4 : σ₄.live = listAllocs [a₂] + listAllocs [a₁] + σ.live := by
            rw [hlive₂, h3, ← hcomp₂]
            simp only [listAllocs, ← Multiset.singleton_add]
            abel
          have hg₂l : g₂.attrList = a₂ :: a₁ :: g.attrList := by
            rw [hg₂]
            dsimp only
            rw [hg₁l]
          have hg₂n : g₂.name = g.name := by
            rw [hg₂]
            dsimp only
            rw [hg₁n]
          have hg₂a : g₂.attrsArr = g.attrsArr := by
            rw [hg₂]
            dsimp only
            rw [hg₁a]
          have hk3 := kmalloc_spec σ₄
          rcases hkm3 : kmalloc σ₄ with ⟨_ | avId, σ₅⟩
          · rw [hkm3] at hk3
            refine ⟨fun h => absurd h (by norm_num [ENOMEM]),
              fun _ => ⟨hg₂n, hg₂a, ?_⟩,
              hframe_trans hk.2.2 (hframe_trans hc.2.2 (hframe_trans hk2.2.2
                (hframe_trans hc2.2.2 (hframe_trans hk3.2.2
                  (hframe_free_attr_list g₂.attrList σ₅)))))⟩
            rw [free_attr_list_live, hk3.1 rfl, h4, hg₂l,
              listAllocs_cons a₂ (a₁ :: g.attrList),
              listAllocs_cons a₁ g.attrList]
            ext n
            simp only [listAllocs_nil, Multiset.count_sub,
              Multiset.count_add, Multiset.count_zero]
            omega
          · rw [hkm3] at hk3
            dsimp only
            have h5 : σ₅.live =
                avId ::ₘ (listAllocs [a₂] + listAllocs [a₁] + σ.live) := by
              rw [hk3.2.1 avId rfl, h4]
            have hc3 := counter_attribute_create_spec g₂ ""
              "function_available" (some .countFunctionAvailableShow) none
              (avId, .funcAvail c.functions_list) σ₅
            rcases hcc3 : counter_attribute_create g₂ "" "function_available"
              (some .countFunctionAvailableShow) none
              (avId, .funcAvail c.functions_list) σ₅ with ⟨e₃, g₃, σ₆⟩
            rw [hcc3] at hc3
            dsimp only at hc3
            rcases eq_or_ne e₃ 0 with rfl | h03
            · obtain ⟨a₃, hg₃, -, -, -, hcomp₃, -, hlive₃⟩ := hc3.1 rfl
              dsimp only
              rw [if_pos rfl]
              have h6 : σ₆.live = listAllocs [a₃] + listAllocs [a₂] +
                  listAllocs [a₁] + σ.live := by
                rw [hlive₃, h5, ← hcomp₃]
                simp only [listAllocs, ← Multiset.singleton_add]
                abel
              have hg₃l : g₃.attrList = a₃ :: a₂ :: a₁ :: g.attrList := by
                rw [hg₃]
                dsimp only
                rw [hg₂l]
              have hg₃n : g₃.name = g.name := by
                rw [hg₃]
                dsimp only
                rw [hg₂n]
              have hg₃a : g₃.attrsArr = g.attrsArr := by
                rw [hg₃]
                dsimp only
                rw [hg₂a]
              have hn := counter_name_attribute_create_spec g₃ c.name σ₆
              rcases hnn : counter_name_attribute_create g₃ c.name σ₆
                with ⟨e₄, g₄, σ₇⟩
              rw [hnn] at hn
              dsimp only at hn
              rcases eq_or_ne e₄ 0 with rfl | h04
              · obtain ⟨new₄, hgrow₄, hl₄⟩ := hn.1 rfl
                dsimp only
                rw [if_pos rfl]
                have h7 : σ₇.live = listAllocs new₄ + (listAllocs [a₃] +
                    listAllocs [a₂] + listAllocs [a₁] + σ.live) := by
                  rw [hl₄, h6]
                have hg₄l : g₄.attrList =
                    new₄ ++ (a₃ :: a₂ :: a₁ :: g.attrList) := by
                  rw [hgrow₄.2.2, hg₃l]
                have hg₄n : g₄.name = g.name := by rw [hgrow₄.1, hg₃n]
                have hg₄a : g₄.attrsArr = g.attrsArr := by
                  rw [hgrow₄.2.1, hg₃a]
                have hx := counter_count_ext_register_spec c c.ext g₄ σ₇
                rcases hxx : counter_count_ext_register c g₄ c.ext σ₇
                  with ⟨e₅, g₅, σ₈⟩
                rw [hxx] at hx
                dsimp only at hx
                rcases eq_or_ne e₅ 0 with rfl | h05
                · obtain ⟨new₅, hgrow₅, hl₅⟩ := hx.1 rfl
                  dsimp only
                  rw [if_pos rfl]
                  refine ⟨fun _ =>
                    ⟨new₅ ++ new₄ ++ [a₃] ++ [a₂] ++ [a₁], ?_, ?_⟩,
                    fun h => absurd rfl h,
                    hframe_trans hk.2.2 (hframe_trans hc.2.2 (hframe_trans
                      hk2.2.2 (hframe_trans hc2.2.2 (hframe_trans hk3.2.2
                        (hframe_trans hc3.2.2 (hframe_trans hn.2.2
                          hx.2.2))))))⟩
                  · refine ⟨hgrow₅.1.trans hg₄n, hgrow₅.2.1.trans hg₄a, ?_⟩
                    rw [hgrow₅.2.2, hg₄l]
                    simp [List.append_assoc]
                  · rw [hl₅, h7]
                    simp only [listAllocs_append]
                    abel
                · obtain ⟨hn₅, ha₅, hl₅, hlv₅⟩ := hx.2.1 h05
                  dsimp only
                  rw [if_neg h05]
                  refine ⟨fun h => absurd h h05,
                    fun _ => ⟨hn₅.trans hg₄n, ha₅.trans hg₄a, ?_⟩,
                    hframe_trans hk.2.2 (hframe_trans hc.2.2 (hframe_trans
                      hk2.2.2 (hframe_trans hc2.2.2 (hframe_trans hk3.2.2
                        (hframe_trans hc3.2.2 (hframe_trans hn.2.2
                          (hframe_trans hx.2.2 (hframe_free_attr_list
                            g₅.attrList σ₈))))))))⟩
                  rw [free_attr_list_live, hlv₅, h7, hg₄l, hl₅,
                    listAllocs_append, listAllocs_cons a₃ (a₂ :: a₁ :: g.attrList),
                    listAllocs_cons a₂ (a₁ :: g.attrList),
                    listAllocs_cons a₁ g.attrList]
                  ext n
                  simp only [listAllocs_nil, Multiset.count_sub,
                    Multiset.count_add, Multiset.count_zero]
                  omega
              · obtain ⟨hg₄, hlv₄⟩ := hn.2.1 h04
                dsimp only
                rw [if_neg h04]
                refine ⟨fun h => absurd h h04,
                  fun _ => ⟨by rw [hg₄, hg₃n], by rw [hg₄, hg₃a], ?_⟩,
                  hframe_trans hk.2.2 (hframe_trans hc.2.2 (hframe_trans
                    hk2.2.2 (hframe_trans hc2.2.2 (hframe_trans hk3.2.2
                      (hframe_trans hc3.2.2 (hframe_trans hn.2.2
                        (hframe_free_attr_list g₄.attrList σ₇)))))))⟩
                rw [free_attr_list_live, hlv₄, h6, hg₄, hg₃l,
                  listAllocs_cons a₃ (a₂ :: a₁ :: g.attrList),
                  listAllocs_cons a₂ (a₁ :: g.attrList),
                  listAllocs_cons a₁ g.attrList]
                ext n
                simp only [listAllocs_nil, Multiset.count_sub,
                  Multiset.count_add, Multiset.count_zero]
                omega
            · obtain ⟨hg₃, hlv₃⟩ := hc3.2.1 h03
              dsimp only
              rw [if_neg h03]
              refine ⟨fun h => absurd h h03,
                fun _ => ⟨by rw [hg₃, hg₂n], by rw [hg₃, hg₂a], ?_⟩,
                hframe_trans hk.2.2 (hframe_trans hc.2.2 (hframe_trans
                  hk2.2.2 (hframe_trans hc2.2.2 (hframe_trans hk3.2.2
                    (hframe_trans hc3.2.2 (hframe_trans
                      (hframe_kfree avId σ₆) (hframe_free_attr_list
                        g₃.attrList (kfree avId σ₆))))))))⟩
              rw [free_attr_list_live, kfree_live, hlv₃, h5, hg₃, hg₂l,
                listAllocs_cons a₂ (a₁ :: g.attrList),
                listAllocs_cons a₁ g.attrList]
              ext n
              simp only [listAllocs_nil, Multiset.count_sub,
                Multiset.count_add, Multiset.count_cons,
                Multiset.count_singleton, Multiset.count_zero]
              split_ifs <;> omega
        · obtain ⟨hg₂, hlv₂⟩ := hc2.2.1 h02
          dsimp only
          rw [if_neg h02]
          refine ⟨fun h => absurd h h02,
            fun _ => ⟨by rw [hg₂, hg₁n], by rw [hg₂, hg₁a], ?_⟩,
            hframe_trans hk.2.2 (hframe_trans hc.2.2 (hframe_trans hk2.2.2
              (hframe_trans hc2.2.2 (hframe_trans (hframe_kfree fcId σ₄)
                (hframe_free_attr_list g₂.attrList (kfree fcId σ₄))))))⟩
          rw [free_attr_list_live, kfree_live, hlv₂, h3, hg₂, hg₁l,
            listAllocs_cons a₁ g.attrList]
          ext n
          simp only [listAllocs_nil, Multiset.count_sub, Multiset.count_add,
            Multiset.count_cons, Multiset.count_singleton,
            Multiset.count_zero]
          split_ifs <;> omega
    · obtain ⟨hg₁, hlv₁⟩ := hc.2.1 h0
      dsimp only
      rw [if_neg h0]
      refine ⟨fun h => absurd h h0, fun _ => ⟨by rw [hg₁], by rw [hg₁], ?_⟩,
        hframe_trans hk.2.2 (hframe_trans hc.2.2 (hframe_kfree ccId σ₂))⟩
      rw [kfree_live, hlv₁, h1, cons_sub_singleton, hg₁]

/-- Specification of `counter_signals_register` over an array of freshly
zeroed groups: on success the heap has grown by exactly the allocations
owned by the returned groups (whose pointer arrays are still NULL); on
failure the `do/while` unwind has restored the heap completely. -/
theorem counter_signals_register_spec (ops : OpsPresence) :
    ∀ (sigs : List counter_signal) (groups : List Group) (σ : Mem),
      (∀ g ∈ groups, g = emptyGroup) →
      ((counter_signals_register ops sigs groups σ).1 = 0 →
        (counter_signals_register ops sigs groups σ).2.2.live =
          groupsAllocs (counter_signals_register ops sigs groups σ).2.1 +
            σ.live ∧
        (counter_signals_register ops sigs groups σ).2.1.length =
          groups.length ∧
        ∀ g' ∈ (counter_signals_register ops sigs groups σ).2.1,
          g'.attrsArr = none) ∧
      ((counter_signals_register ops sigs groups σ).1 ≠ 0 →
        (counter_signals_register ops sigs groups σ).2.2.live = σ.live) ∧
      HFrame σ (counter_signals_register ops sigs groups σ).2.2 := by
  intro sigs
  induction sigs with
  | nil =>
    intro groups σ hgs
    refine ⟨fun _ => ⟨?_, rfl, ?_⟩, fun h => absurd rfl h, hframe_refl σ⟩
    · rw [show counter_signals_register ops [] groups σ = (0, groups, σ)
        from rfl, groupsAllocs_empty hgs, zero_add]
    · intro g' hg'
      rw [hgs g' hg']
      rfl
  | cons s sigs ih =>
    intro groups σ hgs
    match groups with
    | [] =>
      refine ⟨fun _ => ⟨?_, rfl, ?_⟩, fun h => absurd rfl h, hframe_refl σ⟩
      · rw [show counter_signals_register ops (s :: sigs) [] σ = (0, [], σ)
          from rfl]
        simp [groupsAllocs]
      · intro g' hg'
        exact absurd hg' (List.not_mem_nil g')
    | g :: gs =>
      have hge : g = emptyGroup := hgs g (by simp)
      subst hge
      rw [counter_signals_register]
      have hk := kmalloc_spec σ
      rcases hkm : kmalloc σ with ⟨_ | nameId, σ₁⟩
      · rw [hkm] at hk
        refine ⟨fun h => absurd h (by norm_num [ENOMEM]), fun _ => ?_,
          hframe_trans hk.2.2 (hframe_trans (hframe_kfreeOpt _ σ₁)
            (hframe_free_attr_list emptyGroup.attrList _))⟩
        rw [free_attr_list_live]
        rw [show (emptyGroup.name.map Prod.fst) = none from rfl,
          show kfreeOpt none σ₁ = σ₁ from rfl,
          show listAllocs emptyGroup.attrList = 0 from rfl, tsub_zero,
          hk.1 rfl]
      · rw [hkm] at hk
        dsimp only
        have h1 : σ₁.live = nameId ::ₘ σ.live := hk.2.1 nameId rfl
        have hatt := counter_signal_attributes_create_spec
          { emptyGroup with
              name := some (nameId, "signal" ++ toString s.id) } ops s σ₁
        rcases hac : counter_signal_attributes_create
          { emptyGroup with
              name := some (nameId, "signal" ++ toString s.id) } ops s σ₁
          with ⟨e, g₂, σ₂⟩
        rw [hac] at hatt
        dsimp only at hatt
        rcases eq_or_ne e 0 with rfl | h0
        · obtain ⟨new, hgrow, hl⟩ := hatt.1 rfl
          dsimp only
          rw [if_pos rfl]
          have hg₂n : g₂.name = some (nameId, "signal" ++ toString s.id) :=
            hgrow.1
          have hg₂a : g₂.attrsArr = none := hgrow.2.1
          have hg₂l : g₂.attrList = new := by
            rw [hgrow.2.2]
            simp [emptyGroup]
          have hrec := ih gs σ₂ (fun g' hg' => hgs g' (by simp [hg']))
          rcases hr : counter_signals_register ops sigs gs σ₂
            with ⟨e', gs', σ₃⟩
          rw [hr] at hrec
          dsimp only at hrec
          rcases eq_or_ne e' 0 with rfl | h0'
          · obtain ⟨hlR, hlenR, haR⟩ := hrec.1 rfl
            rw [if_pos rfl]
            refine ⟨fun _ => ⟨?_, by simp [hlenR], ?_⟩,
              fun h => absurd rfl h,
              hframe_trans hk.2.2 (hframe_trans hatt.2.2 hrec.2.2)⟩
            · rw [hlR, hl, h1, groupsAllocs, groupAllocs, hg₂n, hg₂a,
                hg₂l, arrAlloc_none]
              rw [show optAlloc (some (nameId, "signal" ++ toString s.id)) =
                ({nameId} : Multiset Nat) from rfl]
              ext n
              simp only [Multiset.count_add, Multiset.count_cons,
                Multiset.count_singleton, Multiset.count_zero,
                Multiset.count_sub]
              split_ifs <;> omega
            · intro g' hg'
              rcases List.mem_cons.mp hg' with rfl | hmem
              · exact hg₂a
              · exact haR g' hmem
          · rw [if_neg h0']
            dsimp only
            refine ⟨fun h => absurd h h0', fun _ => ?_,
              hframe_trans hk.2.2 (hframe_trans hatt.2.2 (hframe_trans
                hrec.2.2 (hframe_trans (hframe_kfreeOpt _ σ₃)
                  (hframe_free_attr_list g₂.attrList _))))⟩
            have hlR := hrec.2.1 h0'
            rw [free_attr_list_live, hg₂n]
            rw [show (Option.map Prod.fst
                (some (nameId, "signal" ++ toString s.id))) = some nameId
              from rfl]
            rw [show ∀ τ : Mem, kfreeOpt (some nameId) τ = kfree nameId τ
              from fun τ => rfl, kfree_live, hlR, hl, h1, hg₂l]
            ext n
            simp only [Multiset.count_sub, Multiset.count_add,
              Multiset.count_cons, Multiset.count_singleton,
              Multiset.count_zero]
            split_ifs <;> omega
        · have hfail := hatt.2.1 h0
          dsimp only
          rw [if_neg h0]
          refine ⟨fun h => absurd h h0, fun _ => ?_,
            hframe_trans hk.2.2 (hframe_trans hatt.2.2 (hframe_trans
              (hframe_kfreeOpt _ σ₂) (hframe_free_attr_list g₂.attrList _)))⟩
          obtain ⟨hn₂, -, hlv⟩ := hfail
          rw [free_attr_list_live, hn₂]
          rw [show (Option.map Prod.fst (({ emptyGroup with
              name := some (nameId, "signal" ++ toString s.id) } :
                Group).name)) = some nameId from rfl]
          rw [show ∀ τ : Mem, kfreeOpt (some nameId) τ = kfree nameId τ
            from fun τ => rfl, kfree_live]
          rw [show listAllocs ({ emptyGroup with
              name := some (nameId, "signal" ++ toString s.id) } :
                Group).attrList = 0 from rfl, tsub_zero] at hlv
          rw [h1] at hlv
          ext n
          have hlv' := congrArg (Multiset.count n) hlv
          simp only [Multiset.count_sub, Multiset.count_add,
            Multiset.count_cons, Multiset.count_singleton,
            Multiset.count_zero] at hlv' ⊢
          split_ifs at hlv' ⊢ <;> omega

/-- Specification of `counter_counts_register` over an array of freshly
zeroed groups (same shape as the Signal phase; each group gets its
Synapse attributes first, then the Count attributes). -/
theorem counter_counts_register_spec (ops : OpsPresence) :
    ∀ (cnts : List counter_count) (groups : List Group) (σ : Mem),
      (∀ g ∈ groups, g = emptyGroup) →
      ((counter_counts_register ops cnts groups σ).1 = 0 →
        (counter_counts_register ops cnts groups σ).2.2.live =
          groupsAllocs (counter_counts_register ops cnts groups σ).2.1 +
            σ.live ∧
        (counter_counts_register ops cnts groups σ).2.1.length =
          groups.length ∧
        ∀ g' ∈ (counter_counts_register ops cnts groups σ).2.1,
          g'.attrsArr = none) ∧
      ((counter_counts_register ops cnts groups σ).1 ≠ 0 →
        (counter_counts_register ops cnts groups σ).2.2.live = σ.live) ∧
      HFrame σ (counter_counts_register ops cnts groups σ).2.2 := by
  intro cnts
  induction cnts with
  | nil =>
    intro groups σ hgs
    refine ⟨fun _ => ⟨?_, rfl, ?_⟩, fun h => absurd rfl h, hframe_refl σ⟩
    · rw [show counter_counts_register ops [] groups σ = (0, groups, σ)
        from rfl, groupsAllocs_empty hgs, zero_add]
    · intro g' hg'
      rw [hgs g' hg']
      rfl
  | cons c cnts ih =>
    intro groups σ hgs
    match groups with
    | [] =>
      refine ⟨fun _ => ⟨?_, rfl, ?_⟩, fun h => absurd rfl h, hframe_refl σ⟩
      · rw [show counter_counts_register ops (c :: cnts) [] σ = (0, [], σ)
          from rfl]
        simp [groupsAllocs]
      · intro g' hg'
        exact absurd hg' (List.not_mem_nil g')
    | g :: gs =>
      have hge : g = emptyGroup := hgs g (by simp)
      subst hge
      rw [counter_counts_register]
      have hk := kmalloc_spec σ
      rcases hkm : kmalloc σ with ⟨_ | nameId, σ₁⟩
      · rw [hkm] at hk
        refine ⟨fun h => absurd h (by norm_num [ENOMEM]), fun _ => ?_,
          hframe_trans hk.2.2 (hframe_trans (hframe_kfreeOpt _ σ₁)
            (hframe_free_attr_list emptyGroup.attrList _))⟩
        rw [free_attr_list_live]
        rw [show (emptyGroup.name.map Prod.fst) = none from rfl,
          show kfreeOpt none σ₁ = σ₁ from rfl,
          show listAllocs emptyGroup.attrList = 0 from rfl, tsub_zero,
          hk.1 rfl]
      · rw [hkm] at hk
        dsimp only
        have h1 : σ₁.live = nameId ::ₘ σ.live := hk.2.1 nameId rfl
        have hsy := counter_synapses_register_spec ops c c.synapses
          { emptyGroup with
              name := some (nameId, "count" ++ toString c.id) } σ₁
        rcases hsc : counter_synapses_register ops c
          { emptyGroup with
              name := some (nameId, "count" ++ toString c.id) } c.synapses σ₁
          with ⟨e₁, g₂, σ₂⟩
        rw [hsc] at hsy
        dsimp only at hsy
        rcases eq_or_ne e₁ 0 with rfl | h0
        · obtain ⟨new₁, hgrow₁, hl₁⟩ := hsy.1 rfl
          dsimp only
          rw [if_pos rfl]
          have hg₂n : g₂.name = some (nameId, "count" ++ toString c.id) :=
            hgrow₁.1
          have hg₂a : g₂.attrsArr = none := hgrow₁.2.1
          have hg₂l : g₂.attrList = new₁ := by
            rw [hgrow₁.2.2]
            simp [emptyGroup]
          have hca := counter_count_attributes_create_spec g₂ ops c σ₂
          rcases hcc : counter_count_attributes_create g₂ ops c σ₂
            with ⟨e₂, g₃, σ₃⟩
          rw [hcc] at hca
          dsimp only at hca
          rcases eq_or_ne e₂ 0 with rfl | h02
          · obtain ⟨new₂, hgrow₂, hl₂⟩ := hca.1 rfl
            rw [if_pos rfl]
            have hg₃n : g₃.name = some (nameId, "count" ++ toString c.id) :=
              hgrow₂.1.trans hg₂n
            have hg₃a : g₃.attrsArr = none := hgrow₂.2.1.trans hg₂a
            have hg₃l : g₃.attrList = new₂ ++ new₁ := by
              rw [hgrow₂.2.2, hg₂l]
            have hrec := ih gs σ₃ (fun g' hg' => hgs g' (by simp [hg']))
            rcases hr : counter_counts_register ops cnts gs σ₃
              with ⟨e₃, gs', σ₄⟩
            rw [hr] at hrec
            dsimp only at hrec
            rcases eq_or_ne e₃ 0 with rfl | h03
            · obtain ⟨hlR, hlenR, haR⟩ := hrec.1 rfl
              rw [if_pos rfl]
              refine ⟨fun _ => ⟨?_, by simp [hlenR], ?_⟩,
                fun h => absurd rfl h,
                hframe_trans hk.2.2 (hframe_trans hsy.2.2 (hframe_trans
                  hca.2.2 hrec.2.2))⟩
              · rw [hlR, hl₂, hl₁, h1, groupsAllocs, groupAllocs, hg₃n,
                  hg₃a, hg₃l, arrAlloc_none, listAllocs_append]
                rw [show optAlloc (some (nameId, "count" ++ toString c.id)) =
                  ({nameId} : Multiset Nat) from rfl]
                ext n
                simp only [Multiset.count_add, Multiset.count_cons,
                  Multiset.count_singleton, Multiset.count_zero]
                split_ifs <;> omega
              · intro g' hg'
                rcases List.mem_cons.mp hg' with rfl | hmem
                · exact hg₃a
                · exact haR g' hmem
            · rw [if_neg h03]
              dsimp only
              refine ⟨fun h => absurd h h03, fun _ => ?_,
                hframe_trans hk.2.2 (hframe_trans hsy.2.2 (hframe_trans
                  hca.2.2 (hframe_trans hrec.2.2 (hframe_trans
                    (hframe_kfreeOpt _ σ₄)
                    (hframe_free_attr_list g₃.attrList _)))))⟩
              have hlR := hrec.2.1 h03
              rw [free_attr_list_live, hg₃n]
              rw [show (Option.map Prod.fst
                  (some (nameId, "count" ++ toString c.id))) = some nameId
                from rfl]
              rw [show ∀ τ : Mem, kfreeOpt (some nameId) τ = kfree nameId τ
                from fun τ => rfl, kfree_live, hlR, hl₂, hl₁, h1, hg₃l,
                listAllocs_append]
              ext n
              simp only [Multiset.count_sub, Multiset.count_add,
                Multiset.count_cons, Multiset.count_singleton,
                Multiset.count_zero]
              split_ifs <;> omega
          · have hfail := hca.2.1 h02
            rw [if_neg h02]
            dsimp only
            refine ⟨fun h => absurd h h02, fun _ => ?_,
              hframe_trans hk.2.2 (hframe_trans hsy.2.2 (hframe_trans
                hca.2.2 (hframe_trans (hframe_kfreeOpt _ σ₃)
                  (hframe_free_attr_list g₃.attrList _))))⟩
            obtain ⟨hn₃, -, hlv⟩ := hfail
            rw [free_attr_list_live, hn₃, hg₂n]
            rw [show (Option.map Prod.fst
                (some (nameId, "count" ++ toString c.id))) = some nameId
              from rfl]
            rw [show ∀ τ : Mem, kfreeOpt (some nameId) τ = kfree nameId τ
              from fun τ => rfl, kfree_live]
            rw [hg₂l, hl₁, h1] at hlv
            ext n
            have hlv' := congrArg (Multiset.count n) hlv
            simp only [Multiset.count_sub, Multiset.count_add,
              Multiset.count_cons, Multiset.count_singleton,
              Multiset.count_zero] at hlv' ⊢
            split_ifs at hlv' ⊢ <;> omega
        · have hfail := hsy.2.1 h0
          dsimp only
          rw [if_neg h0]
          refine ⟨fun h => absurd h h0, fun _ => ?_,
            hframe_trans hk.2.2 (hframe_trans hsy.2.2 (hframe_trans
              (hframe_kfreeOpt _ σ₂) (hframe_free_attr_list g₂.attrList _)))⟩
          obtain ⟨hn₂, -, hls₂, hlv⟩ := hfail
          rw [free_attr_list_live, hn₂]
          rw [show (Option.map Prod.fst (({ emptyGroup with
              name := some (nameId, "count" ++ toString c.id) } :
                Group).name)) = some nameId from rfl]
          rw [show ∀ τ : Mem, kfreeOpt (some nameId) τ = kfree nameId τ
            from fun τ => rfl, kfree_live, hls₂, hlv]
          rw [show listAllocs ({ emptyGroup with
              name := some (nameId, "count" ++ toString c.id) } :
                Group).attrList = 0 from rfl, tsub_zero, h1,
            listAllocs_nil, tsub_zero, cons_sub_singleton]

/-- Specification of `counter_global_attr_register` on the freshly zeroed
trailing group: success adds exactly the global attributes' allocations
(the group name stays NULL); failure restores the heap completely. -/
theorem counter_global_attr_register_spec (dev : counter_device) (σ : Mem) :
    ((counter_global_attr_register emptyGroup dev σ).1 = 0 →
      ∃ new, GrowsBy emptyGroup
          (counter_global_attr_register emptyGroup dev σ).2.1 new ∧
        (counter_global_attr_register emptyGroup dev σ).2.2.live =
          listAllocs new + σ.live) ∧
    ((counter_global_attr_register emptyGroup dev σ).1 ≠ 0 →
      (counter_global_attr_register emptyGroup dev σ).2.2.live = σ.live) ∧
    HFrame σ (counter_global_attr_register emptyGroup dev σ).2.2 := by
  rw [counter_global_attr_register]
  have hn := counter_name_attribute_create_spec emptyGroup dev.name σ
  rcases hnn : counter_name_attribute_create emptyGroup dev.name σ
    with ⟨e₁, g₁, σ₁⟩
  rw [hnn] at hn
  dsimp only at hn
  rcases eq_or_ne e₁ 0 with rfl | h0
  · obtain ⟨new₁, hgrow₁, hl₁⟩ := hn.1 rfl
    dsimp only
    rw [if_pos rfl]
    have hg₁l : g₁.attrList = new₁ := by
      rw [hgrow₁.2.2]
      simp [emptyGroup]
    have hs₁ := counter_size_attribute_create_spec g₁ dev.counts.length
      "num_counts" σ₁
    rcases hsc₁ : counter_size_attribute_create g₁ dev.counts.length
      "num_counts" σ₁ with ⟨e₂, g₂, σ₂⟩
    rw [hsc₁] at hs₁
    dsimp only at hs₁
    rcases eq_or_ne e₂ 0 with rfl | h02
    · obtain ⟨new₂, hgrow₂, hl₂⟩ := hs₁.1 rfl
      rw [if_pos rfl]
      have hg₂l : g₂.attrList = new₂ ++ new₁ := by
        rw [hgrow₂.2.2, hg₁l]
      have hs₂ := counter_size_attribute_create_spec g₂ dev.signals.length
        "num_signals" σ₂
      rcases hsc₂ : counter_size_attribute_create g₂ dev.signals.length
        "num_signals" σ₂ with ⟨e₃, g₃, σ₃⟩
      rw [hsc₂] at hs₂
      dsimp only at hs₂
      rcases eq_or_ne e₃ 0 with rfl | h03
      · obtain ⟨new₃, hgrow₃, hl₃⟩ := hs₂.1 rfl
        rw [if_pos rfl]
        have hg₃l : g₃.attrList = new₃ ++ (new₂ ++ new₁) := by
          rw [hgrow₃.2.2, hg₂l]
        have hx := counter_device_ext_register_spec dev.ext g₃ σ₃
        rcases hxx : counter_device_ext_register g₃ dev.ext σ₃
          with ⟨e₄, g₄, σ₄⟩
        rw [hxx] at hx
        dsimp only at hx
        rcases eq_or_ne e₄ 0 with rfl | h04
        · obtain ⟨new₄, hgrow₄, hl₄⟩ := hx.1 rfl
          rw [if_pos rfl]
          refine ⟨fun _ => ⟨new₄ ++ (new₃ ++ (new₂ ++ new₁)),
            growsBy_trans (growsBy_trans (growsBy_trans hgrow₁ hgrow₂)
              hgrow₃) hgrow₄, ?_⟩, fun h => absurd rfl h,
            hframe_trans hn.2.2 (hframe_trans hs₁.2.2 (hframe_trans
              hs₂.2.2 hx.2.2))⟩
          rw [hl₄, hl₃, hl₂, hl₁]
          simp only [listAllocs_append]
          abel
        · obtain ⟨-, -, hle₄, hlv⟩ := hx.2.1 h04
          rw [if_neg h04]
          dsimp only
          refine ⟨fun h => absurd h h04, fun _ => ?_,
            hframe_trans hn.2.2 (hframe_trans hs₁.2.2 (hframe_trans
              hs₂.2.2 (hframe_trans hx.2.2
                (hframe_free_attr_list g₄.attrList σ₄))))⟩
          rw [free_attr_list_live, hlv, hl₃, hl₂, hl₁, hg₃l, hle₄,
            listAllocs_nil, tsub_zero]
          ext n
          simp only [listAllocs_append, Multiset.count_sub,
            Multiset.count_add, Multiset.count_zero]
          omega
      · obtain ⟨hg₃, hlv₃⟩ := hs₂.2.1 h03
        rw [if_neg h03]
        dsimp only
        refine ⟨fun h => absurd h h03, fun _ => ?_,
          hframe_trans hn.2.2 (hframe_trans hs₁.2.2 (hframe_trans hs₂.2.2
            (hframe_free_attr_list g₃.attrList σ₃)))⟩
        rw [free_attr_list_live, hlv₃, hl₂, hl₁, hg₃, hg₂l]
        ext n
        simp only [listAllocs_append, Multiset.count_sub,
          Multiset.count_add, Multiset.count_zero]
        omega
    · obtain ⟨hg₂, hlv₂⟩ := hs₁.2.1 h02
      rw [if_neg h02]
      dsimp only
      refine ⟨fun h => absurd h h02, fun _ => ?_,
        hframe_trans hn.2.2 (hframe_trans hs₁.2.2
          (hframe_free_attr_list g₂.attrList σ₂))⟩
      rw [free_attr_list_live, hlv₂, hl₁, hg₂, hg₁l]
      ext n
      simp only [Multiset.count_sub, Multiset.count_add, Multiset.count_zero]
      omega
  · obtain ⟨-, hlv₁⟩ := hn.2.1 h0
    dsimp only
    rw [if_neg h0]
    exact ⟨fun h => absurd h h0, fun _ => hlv₁, hn.2.2⟩

theorem groupsAllocs_append (l₁ l₂ : List Group) :
    groupsAllocs (l₁ ++ l₂) = groupsAllocs l₁ + groupsAllocs l₂ := by
  induction l₁ with
  | nil => simp [groupsAllocs]
  | cons g rest ih => simp [groupsAllocs, ih, add_assoc]

/-- Specification of `prepare_counter_device_groups_list`: on success the
heap has grown by the group array plus everything the groups own, the
array covers all `num_signals + num_counts + 1` groups and no group has a
pointer array yet; on failure the heap is fully restored and nothing is
handed out. -/
theorem prepare_counter_device_groups_list_spec (dev : counter_device)
    (σ : Mem) :
    ((prepare_counter_device_groups_list dev σ).1 = 0 →
      ∃ glId groups,
        (prepare_counter_device_groups_list dev σ).2.1 =
          some (glId, groups, dev.signals.length + dev.counts.length + 1) ∧
        groups.length = dev.signals.length + dev.counts.length + 1 ∧
        (∀ g' ∈ groups, g'.attrsArr = none) ∧
        (prepare_counter_device_groups_list dev σ).2.2.live =
          {glId} + groupsAllocs groups + σ.live) ∧
    ((prepare_counter_device_groups_list dev σ).1 ≠ 0 →
      (prepare_counter_device_groups_list dev σ).2.1 = none ∧
      (prepare_counter_device_groups_list dev σ).2.2.live = σ.live) ∧
    HFrame σ (prepare_counter_device_groups_list dev σ).2.2 := by
  rw [prepare_counter_device_groups_list]
  have hk := kmalloc_spec σ
  rcases hkm : kmalloc σ with ⟨_ | glId, σ₁⟩
  · rw [hkm] at hk
    exact ⟨fun h => absurd h (by norm_num [ENOMEM]),
      fun _ => ⟨rfl, hk.1 rfl⟩, hk.2.2⟩
  · rw [hkm] at hk
    dsimp only
    have h1 : σ₁.live = glId ::ₘ σ.live := hk.2.1 glId rfl
    have hsig := counter_signals_register_spec dev.ops dev.signals
      (List.replicate dev.signals.length emptyGroup) σ₁
      (fun g hg => List.eq_of_mem_replicate hg)
    rcases hsc : counter_signals_register dev.ops dev.signals
      (List.replicate dev.signals.length emptyGroup) σ₁
      with ⟨e₁, sigG, σ₂⟩
    rw [hsc] at hsig
    dsimp only at hsig
    rcases eq_or_ne e₁ 0 with rfl | h0
    · obtain ⟨hl₁, hlen₁, ha₁⟩ := hsig.1 rfl
      dsimp only
      rw [if_pos rfl]
      rw [List.length_replicate] at hlen₁
      have hcnt := counter_counts_register_spec dev.ops dev.counts
        (List.replicate dev.counts.length emptyGroup) σ₂
        (fun g hg => List.eq_of_mem_replicate hg)
      rcases hcc : counter_counts_register dev.ops dev.counts
        (List.replicate dev.counts.length emptyGroup) σ₂
        with ⟨e₂, cntG, σ₃⟩
      rw [hcc] at hcnt
      dsimp only at hcnt
      rcases eq_or_ne e₂ 0 with rfl | h02
      · obtain ⟨hl₂, hlen₂, ha₂⟩ := hcnt.1 rfl
        dsimp only
        rw [if_pos rfl]
        rw [List.length_replicate] at hlen₂
        have hgl := counter_global_attr_register_spec dev σ₃
        rcases hgc : counter_global_attr_register emptyGroup dev σ₃
          with ⟨e₃, gG, σ₄⟩
        rw [hgc] at hgl
        dsimp only at hgl
        rcases eq_or_ne e₃ 0 with rfl | h03
        · obtain ⟨newG, hgrowG, hlG⟩ := hgl.1 rfl
          dsimp only
          rw [if_pos rfl]
          refine ⟨fun _ => ⟨glId, sigG ++ cntG ++ [gG], rfl, ?_, ?_, ?_⟩,
            fun h => absurd rfl h,
            hframe_trans hk.2.2 (hframe_trans hsig.2.2 (hframe_trans
              hcnt.2.2 hgl.2.2))⟩
          · simp only [List.length_append, List.length_singleton,
              hlen₁, hlen₂]
          · intro g' hg'
            rcases List.mem_append.mp hg' with hg'' | hg''
            · rcases List.mem_append.mp hg'' with hg3 | hg3
              · exact ha₁ g' hg3
              · exact ha₂ g' hg3
            · rw [List.mem_singleton.mp hg'', hgrowG.2.1]
              rfl
          · rw [hlG, hl₂, hl₁, h1, groupsAllocs_append, groupsAllocs_append]
            rw [show groupsAllocs [gG] = groupAllocs gG + 0 from rfl,
              groupAllocs, hgrowG.1, hgrowG.2.1, hgrowG.2.2]
            rw [show (emptyGroup.attrList : List CAttr) = [] from rfl,
              List.append_nil,
              show (emptyGroup.name : Option (Nat × String)) = none from rfl,
              show (emptyGroup.attrsArr : Option (Nat × List CAttr)) = none
                from rfl, optAlloc_none, arrAlloc_none]
            ext n
            simp only [Multiset.count_add, Multiset.count_cons,
              Multiset.count_singleton, Multiset.count_zero]
            split_ifs <;> omega
        · rw [if_neg h03]
          dsimp only
          have hlv := hgl.2.1 h03
          refine ⟨fun h => absurd h h03, fun _ => ⟨rfl, ?_⟩,
            hframe_trans hk.2.2 (hframe_trans hsig.2.2 (hframe_trans
              hcnt.2.2 (hframe_trans hgl.2.2 (hframe_trans
                (hframe_free_groups_aux _ _) (hframe_kfree glId _)))))⟩
          rw [free_counter_device_groups_list]
          rw [show sigG ++ cntG ++ [gG] = (sigG ++ cntG) ++ [gG] from by
            simp [List.append_assoc]]
          rw [List.take_left' (by simp [hlen₁, hlen₂])]
          rw [kfree_live, free_groups_aux_live, hlv, hl₂, hl₁, h1,
            groupsAllocs_append]
          ext n
          simp only [Multiset.count_sub, Multiset.count_add,
            Multiset.count_cons, Multiset.count_singleton,
            Multiset.count_zero]
          split_ifs <;> omega
      · rw [if_neg h02]
        dsimp only
        have hlv := hcnt.2.1 h02
        refine ⟨fun h => absurd h h02, fun _ => ⟨rfl, ?_⟩,
          hframe_trans hk.2.2 (hframe_trans hsig.2.2 (hframe_trans
            hcnt.2.2 (hframe_trans (hframe_free_groups_aux _ _)
              (hframe_kfree glId _))))⟩
        rw [free_counter_device_groups_list]
        rw [show sigG ++ cntG ++ [emptyGroup] =
          sigG ++ (cntG ++ [emptyGroup]) from by simp [List.append_assoc]]
        rw [List.take_left' hlen₁]
        rw [kfree_live, free_groups_aux_live, hlv, hl₁, h1]
        ext n
        simp only [Multiset.count_sub, Multiset.count_add,
          Multiset.count_cons, Multiset.count_singleton,
          Multiset.count_zero]
        split_ifs <;> omega
    · rw [if_neg h0]
      dsimp only
      have hlv := hsig.2.1 h0
      refine ⟨fun h => absurd h h0, fun _ => ⟨rfl, ?_⟩,
        hframe_trans hk.2.2 (hframe_trans hsig.2.2 (hframe_trans
          (hframe_free_groups_aux _ _) (hframe_kfree glId _)))⟩
      rw [free_counter_device_groups_list, List.take_zero, kfree_live]
      rw [show ∀ τ : Mem, free_groups_aux [] τ = τ from fun τ => rfl]
      rw [hlv, h1, cons_sub_singleton]

/-- Specification of `prepare_groups_arrays`: whether it succeeds or
fails, the heap has grown by exactly the pointer arrays now recorded in
the returned groups' `attrsArr` fields (a failure leaves the arrays of
the earlier groups in place — they are released later through
`free_counter_device_groups_list`). -/
theorem prepare_groups_arrays_spec :
    ∀ (groups : List Group) (σ : Mem), (∀ g ∈ groups, g.attrsArr = none) →
      ∃ M : Multiset Nat,
        (prepare_groups_arrays groups σ).2.2.live = M + σ.live ∧
        groupsAllocs (prepare_groups_arrays groups σ).2.1 =
          M + groupsAllocs groups ∧
        (prepare_groups_arrays groups σ).2.1.length = groups.length ∧
        HFrame σ (prepare_groups_arrays groups σ).2.2 := by
  intro groups
  induction groups with
  | nil =>
    intro σ _
    exact ⟨0, by simp [prepare_groups_arrays], by simp [prepare_groups_arrays],
      rfl, hframe_refl σ⟩
  | cons g rest ih =>
    intro σ hnone
    rw [prepare_groups_arrays]
    have hk := kmalloc_spec σ
    rcases hkm : kmalloc σ with ⟨_ | arrId, σ₁⟩
    · rw [hkm] at hk
      exact ⟨0, by rw [zero_add, hk.1 rfl], by rw [zero_add], rfl, hk.2.2⟩
    · rw [hkm] at hk
      dsimp only
      have h1 : σ₁.live = arrId ::ₘ σ.live := hk.2.1 arrId rfl
      obtain ⟨M, hM₁, hM₂, hM₃, hMf⟩ :=
        ih σ₁ (fun g' hg' => hnone g' (by simp [hg']))
      rcases hr : prepare_groups_arrays rest σ₁ with ⟨e, rest', σ₂⟩
      rw [hr] at hM₁ hM₂ hM₃ hMf
      dsimp only at hM₁ hM₂ hM₃ hMf
      refine ⟨{arrId} + M, ?_, ?_, by simp [hM₃], hframe_trans hk.2.2 hMf⟩
      · rw [hM₁, h1]
        ext n
        simp only [Multiset.count_add, Multiset.count_cons,
          Multiset.count_singleton]
        split_ifs <;> omega
      · rw [groupsAllocs, groupsAllocs, hM₂, groupAllocs, groupAllocs,
          hnone g (by simp), arrAlloc_none]
        rw [show arrAlloc (some (arrId, g.attrList)) =
          ({arrId} : Multiset Nat) from rfl]
        ext n
        simp only [Multiset.count_add, Multiset.count_singleton,
          Multiset.count_zero]
        split_ifs <;> omega

/-- Specification of `prepare_counter_device_groups`: success adds the
`groups` pointer array and the per-group arrays; failure releases the
`groups` pointer array, the partially installed per-group arrays staying
owned by the returned groups. -/
theorem prepare_counter_device_groups_spec (groups : List Group) (σ : Mem)
    (hnone : ∀ g ∈ groups, g.attrsArr = none) :
    (∃ M : Multiset Nat,
      (prepare_counter_device_groups groups σ).2.2.2.live +
          groupsAllocs groups =
        M + groupsAllocs (prepare_counter_device_groups groups σ).2.1 +
          σ.live ∧
      ((prepare_counter_device_groups groups σ).1 = 0 →
        ∃ gsId, (prepare_counter_device_groups groups σ).2.2.1 = some gsId ∧
          M = {gsId}) ∧
      ((prepare_counter_device_groups groups σ).1 ≠ 0 → M = 0 ∧
        (prepare_counter_device_groups groups σ).2.2.1 = none) ∧
      (prepare_counter_device_groups groups σ).2.1.length = groups.length) ∧
    HFrame σ (prepare_counter_device_groups groups σ).2.2.2 := by
  rw [prepare_counter_device_groups]
  have hk := kmalloc_spec σ
  rcases hkm : kmalloc σ with ⟨_ | gsId, σ₁⟩
  · rw [hkm] at hk
    dsimp only
    refine ⟨⟨0, ?_, fun h => absurd h (by norm_num [ENOMEM]),
      fun _ => ⟨rfl, rfl⟩, rfl⟩, hk.2.2⟩
    rw [hk.1 rfl, zero_add]
    abel
  · rw [hkm] at hk
    dsimp only
    have h1 : σ₁.live = gsId ::ₘ σ.live := hk.2.1 gsId rfl
    obtain ⟨M, hM₁, hM₂, hM₃, hMf⟩ := prepare_groups_arrays_spec groups σ₁
      hnone
    rcases hr : prepare_groups_arrays groups σ₁ with ⟨e, groups', σ₂⟩
    rw [hr] at hM₁ hM₂ hM₃ hMf
    dsimp only at hM₁ hM₂ hM₃ hMf
    rcases eq_or_ne e 0 with rfl | h0
    · dsimp only
      rw [if_pos rfl]
      dsimp only
      refine ⟨⟨{gsId}, ?_, fun _ => ⟨gsId, rfl, rfl⟩,
        fun h => absurd rfl h, hM₃⟩, hframe_trans hk.2.2 hMf⟩
      rw [hM₁, hM₂, h1]
      ext n
      simp only [Multiset.count_add, Multiset.count_cons,
        Multiset.count_singleton]
      split_ifs <;> omega
    · dsimp only
      rw [if_neg h0]
      dsimp only
      refine ⟨⟨0, ?_, fun h => absurd h h0, fun _ => ⟨rfl, rfl⟩, hM₃⟩,
        hframe_trans hk.2.2 (hframe_trans hMf (hframe_kfree gsId σ₂))⟩
      rw [kfree_live, hM₁, hM₂, h1]
      ext n
      simp only [Multiset.count_sub, Multiset.count_add,
        Multiset.count_cons, Multiset.count_singleton, Multiset.count_zero]
      split_ifs <;> omega

theorem ida_simple_get_spec (σ : Mem) :
    ((ida_simple_get σ).1 = none → (ida_simple_get σ).2.idaLive = σ.idaLive) ∧
    (∀ i, (ida_simple_get σ).1 = some i →
      (ida_simple_get σ).2.idaLive = i ::ₘ σ.idaLive) ∧
    (ida_simple_get σ).2.live = σ.live ∧
    (ida_simple_get σ).2.published = σ.published := by
  by_cases h : σ.oracle σ.tick <;> simp [ida_simple_get, h]

theorem ida_simple_remove_live (i : Nat) (σ : Mem) :
    (ida_simple_remove i σ).live = σ.live := rfl

theorem ida_simple_remove_published (i : Nat) (σ : Mem) :
    (ida_simple_remove i σ).published = σ.published := rfl

theorem ida_simple_remove_idaLive (i : Nat) (σ : Mem) :
    (ida_simple_remove i σ).idaLive = σ.idaLive.erase i := rfl

theorem kfree_idaLive (p : Nat) (σ : Mem) : (kfree p σ).idaLive = σ.idaLive :=
  rfl

theorem kfree_published (p : Nat) (σ : Mem) :
    (kfree p σ).published = σ.published := rfl

theorem device_add_spec (i : Nat) (gs : List Group) (σ : Mem) :
    ((device_add i gs σ).1 ≠ 0 →
      (device_add i gs σ).2.published = σ.published) ∧
    (device_add i gs σ).2.live = σ.live ∧
    (device_add i gs σ).2.idaLive = σ.idaLive := by
  by_cases h : σ.oracle σ.tick <;> simp [device_add, h]

/-- C2: whenever `counter_register` fails — an allocation failure at any
point of the namespace build, an exhausted id allocator, or a host
registration failure — every group, endpoint and dispatch context already
constructed has been released (the live heap multiset is exactly the one
before the call), the instance id has been returned, the host has not
been handed anything, and no device state is handed onward. -/
theorem claim_C2 (dev : counter_device) (σ : Mem)
    (he : (counter_register dev σ).1 ≠ 0) :
    (counter_register dev σ).2.1 = none ∧
    (counter_register dev σ).2.2.live = σ.live ∧
    (counter_register dev σ).2.2.idaLive = σ.idaLive ∧
    (counter_register dev σ).2.2.published = σ.published := by
  rw [counter_register] at he ⊢
  have hk := kmalloc_spec σ
  rcases hkm : kmalloc σ with ⟨_ | dsId, σ₁⟩
  · rw [hkm] at hk he
    exact ⟨rfl, hk.1 rfl, hk.2.2.2.2.1, hk.2.2.2.2.2⟩
  · rw [hkm] at hk he
    dsimp only at he ⊢
    have h1 : σ₁.live = dsId ::ₘ σ.live := hk.2.1 dsId rfl
    have hia := ida_simple_get_spec σ₁
    rcases hii : ida_simple_get σ₁ with ⟨_ | instId, σ₂⟩
    · rw [hii] at hia he
      refine ⟨rfl, ?_, ?_, ?_⟩
      · rw [kfree_live, hia.2.2.1, h1, cons_sub_singleton]
      · rw [kfree_idaLive, hia.1 rfl, hk.2.2.2.2.1]
      · rw [kfree_published, hia.2.2.2, hk.2.2.2.2.2]
    · rw [hii] at hia he
      dsimp only at he ⊢
      have h2l : σ₂.live = dsId ::ₘ σ.live := by rw [hia.2.2.1, h1]
      have h2i : σ₂.idaLive = instId ::ₘ σ.idaLive := by
        rw [hia.2.1 instId rfl, hk.2.2.2.2.1]
      have h2p : σ₂.published = σ.published := by
        rw [hia.2.2.2, hk.2.2.2.2.2]
      have hp := prepare_counter_device_groups_list_spec dev σ₂
      rcases hpp : prepare_counter_device_groups_list dev σ₂
        with ⟨e₁, info, σ₃⟩
      rw [hpp] at hp he
      dsimp only at hp
      rcases eq_or_ne e₁ 0 with rfl | h01
      · obtain ⟨glId, groups, hinfo, hglen, hnone, hl₃⟩ := hp.1 rfl
        rw [hinfo] at he ⊢
        dsimp only at he ⊢
        have hq := prepare_counter_device_groups_spec groups σ₃ hnone
        rcases hqq : prepare_counter_device_groups groups σ₃
          with ⟨e₂, groups', gsIdOpt, σ₄⟩
        rw [hqq] at hq he
        dsimp only at hq
        obtain ⟨⟨M, hM₁, hMok, hMfail, hMlen⟩, hMf⟩ := hq
        rcases eq_or_ne e₂ 0 with rfl | h02
        · obtain ⟨gsId, hgs, hMval⟩ := hMok rfl
          rw [hgs] at he ⊢
          dsimp only at he ⊢
          subst hMval
          have hd := device_add_spec instId groups' σ₄
          rcases hdd : device_add instId groups' σ₄ with ⟨e₃, σ₅⟩
          rw [hdd] at hd he
          dsimp only at he ⊢
          rcases eq_or_ne e₃ 0 with rfl | h03
          · rw [if_pos rfl] at he
            exact absurd rfl he
          · rw [if_neg h03] at he ⊢
            refine ⟨rfl, ?_, ?_, ?_⟩
            · rw [kfree_live, ida_simple_remove_live,
                free_counter_device_groups_list]
              rw [show groups'.take (dev.signals.length +
                  dev.counts.length + 1) = groups' from by
                rw [← hglen, ← hMlen, List.take_length]]
              rw [kfree_live, free_groups_aux_live, kfree_live,
                hd.2.1, h2l] at *
              rw [hl₃] at hM₁
              ext n
              have hM₁' := congrArg (Multiset.count n) hM₁
              simp only [Multiset.count_sub, Multiset.count_add,
                Multiset.count_cons, Multiset.count_singleton,
                Multiset.count_zero] at hM₁' ⊢
              split_ifs at hM₁' ⊢ <;> omega
            · rw [kfree_idaLive, ida_simple_remove_idaLive]
              have : σ₅.idaLive = instId ::ₘ σ.idaLive := by
                rw [hd.2.2, hMf.2.2.1, hp.2.2.2.2.1, h2i]
              rw [show (free_counter_device_groups_list glId groups'
                  (dev.signals.length + dev.counts.length + 1)
                  (kfree gsId σ₅)).idaLive = σ₅.idaLive from by
                rw [free_counter_device_groups_list, kfree_idaLive,
                  (hframe_free_groups_aux _ _).2.2.1, kfree_idaLive]]
              rw [this, Multiset.erase_cons_head]
            · rw [kfree_published, ida_simple_remove_published]
              rw [show (free_counter_device_groups_list glId groups'
                  (dev.signals.length + dev.counts.length + 1)
                  (kfree gsId σ₅)).published = σ₅.published from by
                rw [free_counter_device_groups_list, kfree_published,
                  (hframe_free_groups_aux _ _).2.2.2, kfree_published]]
              rw [hd.1 h03, hMf.2.2.2, hp.2.2.2.2.2, h2p]
        · obtain ⟨hMval, hgs⟩ := hMfail h02
          rw [hgs] at he ⊢
          dsimp only at he ⊢
          subst hMval
          refine ⟨rfl, ?_, ?_, ?_⟩
          · rw [kfree_live, ida_simple_remove_live,
              free_counter_device_groups_list]
            rw [show groups'.take (dev.signals.length +
                dev.counts.length + 1) = groups' from by
              rw [← hglen, ← hMlen, List.take_length]]
            rw [kfree_live, free_groups_aux_live, h2l] at *
            rw [hl₃] at hM₁
            ext n
            have hM₁' := congrArg (Multiset.count n) hM₁
            simp only [Multiset.count_sub, Multiset.count_add,
              Multiset.count_cons, Multiset.count_singleton,
              Multiset.count_zero] at hM₁' ⊢
            split_ifs at hM₁' ⊢ <;> omega
          · rw [kfree_idaLive, ida_simple_remove_idaLive]
            rw [show (free_counter_device_groups_list glId groups'
                (dev.signals.length + dev.counts.length + 1)
                σ₄).idaLive = σ₄.idaLive from by
              rw [free_counter_device_groups_list, kfree_idaLive,
                (hframe_free_groups_aux _ _).2.2.1]]
            rw [hMf.2.2.1, hp.2.2.2.2.1, h2i, Multiset.erase_cons_head]
          · rw [kfree_published, ida_simple_remove_published]
            rw [show (free_counter_device_groups_list glId groups'
                (dev.signals.length + dev.counts.length + 1)
                σ₄).published = σ₄.published from by
              rw [free_counter_device_groups_list, kfree_published,
                (hframe_free_groups_aux _ _).2.2.2]]
            rw [hMf.2.2.2, hp.2.2.2.2.2, h2p]
      · obtain ⟨hinfo, hl₃⟩ := hp.2.1 h01
        rw [hinfo] at he ⊢
        dsimp only at he ⊢
        refine ⟨rfl, ?_, ?_, ?_⟩
        · rw [kfree_live, ida_simple_remove_live, hl₃, h2l,
            cons_sub_singleton]
        · rw [kfree_idaLive, ida_simple_remove_idaLive, hp.2.2.2.2.1, h2i,
            Multiset.erase_cons_head]
        · rw [kfree_published, ida_simple_remove_published,
            hp.2.2.2.2.2, h2p]

/-- A memory state whose 35th fallible acquisition — the host
registration step for `dev4` — fails, everything before it succeeding. -/
def memFail34 : Mem := { mem0 with oracle := fun t => t ≠ 34 }

theorem claim_C2_witness :
    (counter_register dev4 memFail34).1 ≠ 0 ∧
    ((counter_register dev4 memFail34).2.1 = none ∧
     (counter_register dev4 memFail34).2.2.live = memFail34.live ∧
     (counter_register dev4 memFail34).2.2.idaLive = memFail34.idaLive ∧
     (counter_register dev4 memFail34).2.2.published = memFail34.published) :=
  ⟨by decide, claim_C2 dev4 memFail34 (by decide)⟩

end GenericCounter
